import Mathlib

/-!
Verification of the dwm window-manager core (zoriya/dwm) against its
natural-language specification.

The development shallowly embeds the window-management state machine of
src/dwm.c.  Following the spec's own design note (§9, "Cyclic references"),
clients and monitors live in arenas indexed by stable natural-number ids;
the linked lists (`cl->clients`, `cl->stack`, `mons`) become Lean lists of
ids, and the `next`/`snext`/`mon` pointer fields become positions in those
lists / id fields.  X-server-only side effects (drawing, stacking order,
pointer warps, border colours, input focus) do not change the modelled
state; the root properties `_NET_CLIENT_LIST`, `_NET_CLIENT_LIST_STACKING`
and `_NET_CURRENT_DESKTOP` are modelled because claims speak about them,
and calls to XConfigureWindow issued by `resizeclient` are logged because
claims speak about the border width they carry.

C `int` arithmetic is modelled by `Int` with truncating division
(`Int.tdiv` / `Int.tmod`, the C semantics); C `float` values (`mfact`,
`mina`, `maxa`) are modelled by `ℚ`; C `unsigned int` bitmasks by `Nat`
with `&&&`, `|||`, `^^^`.
-/

namespace Dwm

/-! ### Configuration constants (src/config.h) -/

/-- LENGTH(tags) in config.h: nine tags. -/
def lenTags : Nat := 9

/-- LENGTH(scratchpads) in config.h: one scratchpad ("kitty-sp"). -/
def lenScratchpads : Nat := 1

/-- NUMTAGS = LENGTH(tags) + LENGTH(scratchpads). -/
def NUMTAGS : Nat := lenTags + lenScratchpads

/-- TAGMASK = (1 << NUMTAGS) - 1. -/
def TAGMASK : Nat := (1 <<< NUMTAGS) - 1

/-- SPTAGMASK = ((1 << LENGTH(scratchpads)) - 1) << LENGTH(tags). -/
def SPTAGMASK : Nat := ((1 <<< lenScratchpads) - 1) <<< lenTags

/-- borderpx in config.h. -/
def borderpx : Int := 2

/-- resizehints in config.h (0: do not respect size hints in tiled resizals). -/
def resizehints : Bool := false

/-- smartgaps in config.h. -/
def smartgaps : Int := 3

/-- gappih in config.h. -/
def gappihDefault : Int := 20

/-- gappiv in config.h. -/
def gappivDefault : Int := 20

/-- gappoh in config.h. -/
def gappohDefault : Int := 10

/-- gappov in config.h. -/
def gappovDefault : Int := 30

/-- mfact in config.h (0.55). -/
def mfactDefault : ℚ := 11/20

/-- nmaster in config.h. -/
def nmasterDefault : Int := 1

/-- floatposgrid_x in config.h. -/
def floatposgrid_x : Int := 5

/-- floatposgrid_y in config.h. -/
def floatposgrid_y : Int := 5

/-- swallowfloating in config.h (0 by default: do not swallow floating windows). -/
def swallowfloating : Bool := false

/-! ### Data model (struct Client, struct Monitor, struct Clientlist) -/

/-- Layouts reachable in this embedding.  `layouts[]` in config.h names many
layout functions; `floating` stands for the NULL arrange entry ("><>"),
`monocle` for dwm.c's `monocle`, and `tile` for the tile layout.  dwm.c
compares layout function pointers (`&monocle == ...->arrange`), which this
enum models by constructor equality. -/
inductive Layout where
  | floating : Layout
  | monocle : Layout
  | tile : Layout
deriving DecidableEq

/-- A layout has an arrange function unless it is the NULL (floating) entry. -/
def Layout.hasArrange : Layout → Bool
  | .floating => false
  | _ => true

/-- Layout symbol strings from the layouts table in config.h. -/
def Layout.symbol : Layout → String
  | .floating => "><>"
  | .monocle => "[M]"
  | .tile => "[]="

/-- struct Client (dwm.c).  `win` is the X window handle, `mon` the id of
the owning monitor, `swallowing` the id of a swallowed child (if any). -/
structure Client where
  win : Nat
  name : String
  x : Int
  y : Int
  w : Int
  h : Int
  oldx : Int
  oldy : Int
  oldw : Int
  oldh : Int
  basew : Int
  baseh : Int
  incw : Int
  inch : Int
  maxw : Int
  maxh : Int
  minw : Int
  minh : Int
  mina : ℚ
  maxa : ℚ
  bw : Int
  oldbw : Int
  tags : Nat
  isfixed : Bool
  isfloating : Bool
  isurgent : Bool
  neverfocus : Bool
  oldstate : Bool
  isfullscreen : Bool
  ignoresizehints : Bool
  beingmoved : Bool
  isterminal : Bool
  noswallow : Bool
  mon : Nat
  swallowing : Option Nat
deriving DecidableEq

/-- struct Monitor (dwm.c).  `tagset0`/`tagset1` are `tagset[0]`/`tagset[1]`,
`seltags`/`sellt` the 0/1 selectors, `lt0`/`lt1` the two layout slots,
`sel` the selected client id. -/
structure Monitor where
  num : Nat
  mx : Int
  my : Int
  mw : Int
  mh : Int
  wx : Int
  wy : Int
  ww : Int
  wh : Int
  gappih : Int
  gappiv : Int
  gappoh : Int
  gappov : Int
  mfact : ℚ
  nmaster : Int
  seltags : Bool
  sellt : Bool
  tagset0 : Nat
  tagset1 : Nat
  showbar : Bool
  sel : Option Nat
  lt0 : Layout
  lt1 : Layout
  ltsymbol : String
deriving DecidableEq

/-- The currently displayed tagset, `m->tagset[m->seltags]`. -/
def Monitor.curtags (m : Monitor) : Nat :=
  if m.seltags then m.tagset1 else m.tagset0

/-- Assignment to `m->tagset[m->seltags]`. -/
def Monitor.setcurtags (m : Monitor) (t : Nat) : Monitor :=
  if m.seltags then { m with tagset1 := t } else { m with tagset0 := t }

/-- The current layout, `m->lt[m->sellt]`. -/
def Monitor.curlt (m : Monitor) : Layout :=
  if m.sellt then m.lt1 else m.lt0

/-- One XConfigureWindow call issued by `resizeclient` (window, geometry and
the border width actually sent to the X server). -/
structure Conf where
  win : Nat
  x : Int
  y : Int
  w : Int
  h : Int
  borderWidth : Int
deriving DecidableEq

/-- Read-only ambient X data: screen size `sw`/`sh`, bar height `bh`,
root-pointer position (read by `getrootptr`) and the window-title
properties read by `updatetitle`. -/
structure Env where
  sw : Int
  sh : Int
  bh : Int
  ptrx : Int
  ptry : Int
  titles : Nat → String

/-- The world: the global window-manager state.  `clients` and `stack` model
the single shared `Clientlist` (dwm.c line 432 declares one global `cl` and
`createmon` sets `m->cl = cl` for every monitor); `mons` is the monitor
list, `selmon` the selected monitor's id.  `conf` logs XConfigureWindow
calls most-recent-first; the `net*` fields model the root properties. -/
structure World where
  clients : List Nat
  stack : List Nat
  cmap : Nat → Client
  mons : List Nat
  mmap : Nat → Monitor
  selmon : Nat
  netClientList : List Nat
  netClientListStacking : List Nat
  netCurrentDesktop : Int
  conf : List Conf

/-- Point update of one client record. -/
def World.updc (w : World) (i : Nat) (f : Client → Client) : World :=
  { w with cmap := fun j => if j = i then f (w.cmap j) else w.cmap j }

/-- Point update of one monitor record. -/
def World.updm (w : World) (i : Nat) (f : Monitor → Monitor) : World :=
  { w with mmap := fun j => if j = i then f (w.mmap j) else w.mmap j }

/-- ISVISIBLE(C, M) = (C->tags & M->tagset[M->seltags]). -/
def ISVISIBLE (c : Client) (m : Monitor) : Prop :=
  c.tags &&& m.curtags ≠ 0

instance (c : Client) (m : Monitor) : Decidable (ISVISIBLE c m) := by
  unfold ISVISIBLE; infer_instance

/-- WIDTH(X) = X->w + 2 * X->bw. -/
def WIDTH (c : Client) : Int := c.w + 2 * c.bw

/-- HEIGHT(X) = X->h + 2 * X->bw. -/
def HEIGHT (c : Client) : Int := c.h + 2 * c.bw

/-! ### List plumbing for the linked lists -/

/-- nexttiled(c, m): first client from the given chain suffix that is
neither floating nor invisible on `m`. -/
def nexttiled (w : World) (m : Monitor) : List Nat → Option Nat
  | [] => none
  | i :: rest =>
    if (w.cmap i).isfloating ∨ ¬ ISVISIBLE (w.cmap i) m then nexttiled w m rest
    else some i

/-- The suffix of the chain after client `i` (its `next` pointer), for a
client that occurs in the list. -/
def sufAfter (i : Nat) : List Nat → List Nat
  | [] => []
  | j :: rest => if j = i then rest else sufAfter i rest

/-- attach(c): push onto the shared `cl->clients` head. -/
def attach (w : World) (i : Nat) : World :=
  { w with clients := i :: w.clients }

/-- attachstack(c): push onto the shared `cl->stack` head. -/
def attachstack (w : World) (i : Nat) : World :=
  { w with stack := i :: w.stack }

/-- detach(c): unlink the (first) occurrence of `c` from `cl->clients`. -/
def detach (w : World) (i : Nat) : World :=
  { w with clients := w.clients.erase i }

/-- First stack entry visible on `m` (the scan in `detachstack`/`focus`). -/
def firstVisible (w : World) (m : Monitor) : List Nat → Option Nat
  | [] => none
  | i :: rest =>
    if ISVISIBLE (w.cmap i) m then some i else firstVisible w m rest

/-- detachstack(c): unlink from `cl->stack`; if `c` was its monitor's `sel`,
re-select the first client of the new stack visible on that monitor. -/
def detachstack (w : World) (i : Nat) : World :=
  let w1 : World := { w with stack := w.stack.erase i }
  let c := w.cmap i
  if (w1.mmap c.mon).sel = some i then
    w1.updm c.mon (fun m => { m with sel := firstVisible w1 (w1.mmap c.mon) w1.stack })
  else w1

/-- unfocus(c, setfocus) only issues X calls (button grabs, border colour,
input focus, deleting `_NET_ACTIVE_WINDOW`): no modelled state changes. -/
def unfocus (w : World) (_i : Option Nat) (_setfocus : Bool) : World := w

/-- seturgent(c, urg): set the urgency flag (the XWMHints update is
X-server-side only). -/
def seturgent (w : World) (i : Nat) (urg : Bool) : World :=
  w.updc i (fun c => { c with isurgent := urg })

/-! ### Geometry: applysizehints, resize, resizeclient -/

/-- Conversion of a C float expression to int: truncation toward zero. -/
def ctrunc (q : ℚ) : Int :=
  if q < 0 then -((-q).floor) else q.floor

/-- The position-clamping block of applysizehints: the `if (interact)`
branch clamps against the whole screen, the other against the client's
monitor's window area. -/
def clampPos (env : Env) (c : Client) (m : Monitor)
    (x y wd ht : Int) (interact : Bool) : Int × Int :=
  if interact then
    let x := if x > env.sw then env.sw - WIDTH c else x
    let y := if y > env.sh then env.sh - HEIGHT c else y
    let x := if x + wd + 2 * c.bw < 0 then 0 else x
    let y := if y + ht + 2 * c.bw < 0 then 0 else y
    (x, y)
  else
    let x := if x ≥ m.wx + m.ww then m.wx + m.ww - WIDTH c else x
    let y := if y ≥ m.wy + m.wh then m.wy + m.wh - HEIGHT c else y
    let x := if x + wd + 2 * c.bw ≤ m.wx then m.wx else x
    let y := if y + ht + 2 * c.bw ≤ m.wy then m.wy else y
    (x, y)

/-- The ICCCM 4.1.2.3 block of applysizehints: base/aspect/increment/
min-max adjustments of the requested size. -/
def hintAdjust (c : Client) (wd ht : Int) : Int × Int :=
  let baseismin := c.basew = c.minw ∧ c.baseh = c.minh
  let p := if ¬ baseismin then (wd - c.basew, ht - c.baseh) else (wd, ht)
  let p :=
    if c.mina > 0 ∧ c.maxa > 0 then
      if c.maxa < (p.1 : ℚ) / (p.2 : ℚ) then (ctrunc ((p.2 : ℚ) * c.maxa + 1/2), p.2)
      else if c.mina < (p.2 : ℚ) / (p.1 : ℚ) then (p.1, ctrunc ((p.1 : ℚ) * c.mina + 1/2))
      else p
    else p
  let p := if baseismin then (p.1 - c.basew, p.2 - c.baseh) else p
  let p := if c.incw ≠ 0 then (p.1 - Int.tmod p.1 c.incw, p.2) else p
  let p := if c.inch ≠ 0 then (p.1, p.2 - Int.tmod p.2 c.inch) else p
  let p := (max (p.1 + c.basew) c.minw, max (p.2 + c.baseh) c.minh)
  let p := if c.maxw ≠ 0 then (min p.1 c.maxw, p.2) else p
  let p := if c.maxh ≠ 0 then (p.1, min p.2 c.maxh) else p
  p

/-- applysizehints(c, &x, &y, &w, &h, interact): returns the adjusted
geometry together with the "geometry differs from the client's current
one" flag the C function returns.  The C function writes only through its
pointer arguments, so the embedding is pure. -/
def applysizehints (env : Env) (w : World) (i : Nat)
    (x y wd ht : Int) (interact : Bool) : Bool × Int × Int × Int × Int :=
  let c := w.cmap i
  let m := w.mmap c.mon
  let wd := max 1 wd
  let ht := max 1 ht
  let xy := clampPos env c m x y wd ht interact
  let x := xy.1
  let y := xy.2
  let ht := if ht < env.bh then env.bh else ht
  let wd := if wd < env.bh then env.bh else wd
  let wh2 : Int × Int :=
    if ¬ c.ignoresizehints ∧ (resizehints ∨ c.isfloating ∨ ¬ m.curlt.hasArrange) then
      hintAdjust c wd ht
    else (wd, ht)
  let wd := wh2.1
  let ht := wh2.2
  (decide (x ≠ c.x ∨ y ≠ c.y ∨ wd ≠ c.w ∨ ht ≠ c.h), x, y, wd, ht)

/-- resizeclient(c, x, y, w, h): store the new geometry (saving the old one
in the `old*` fields), then — unless the client is being moved — send an
XConfigureWindow.  When the client is the only visible tiled client of its
monitor or the monitor's layout is `monocle`, and it is neither fullscreen
nor floating and a layout is active, the border is elided: the stored
width/height grow by `2*bw` and the configure carries border width 0. -/
def resizeclient (w : World) (i : Nat) (x y wd ht : Int) : World :=
  let w1 := w.updc i (fun c =>
    { c with oldx := c.x, x := x, oldy := c.y, y := y,
             oldw := c.w, w := wd, oldh := c.h, h := ht })
  let c := w1.cmap i
  if c.beingmoved then w1
  else
    let m := w1.mmap c.mon
    if ((nexttiled w1 m w1.clients = some i ∧ nexttiled w1 m (sufAfter i w1.clients) = none)
          ∨ m.curlt = Layout.monocle)
        ∧ ¬ c.isfullscreen ∧ ¬ c.isfloating ∧ m.curlt.hasArrange then
      let w2 := w1.updc i (fun c => { c with w := wd + c.bw * 2, h := ht + c.bw * 2 })
      { w2 with conf := ⟨c.win, x, y, wd + c.bw * 2, ht + c.bw * 2, 0⟩ :: w2.conf }
    else
      { w1 with conf := ⟨c.win, x, y, wd, ht, c.bw⟩ :: w1.conf }

/-- resize(c, x, y, w, h, interact): apply size hints, and call
`resizeclient` only when the adjusted geometry differs. -/
def resize (env : Env) (w : World) (i : Nat)
    (x y wd ht : Int) (interact : Bool) : World :=
  let r := applysizehints env w i x y wd ht interact
  if r.1 then resizeclient w i r.2.1 r.2.2.1 r.2.2.2.1 r.2.2.2.2 else w

/-! ### Layouts and arrange -/

/-- showhide(stack): walk the focus stack; visible floating scratchpad
clients are re-centred, visible floating / no-layout clients are resized in
place; hiding and the XMoveWindow calls are X-server-side only. -/
def showhide (env : Env) (w : World) : List Nat → World
  | [] => w
  | i :: rest =>
    let c := w.cmap i
    let m := w.mmap c.mon
    if ISVISIBLE c m then
      let w1 :=
        if c.tags &&& SPTAGMASK ≠ 0 ∧ c.isfloating then
          w.updc i (fun c =>
            { c with x := m.wx + (Int.tdiv m.ww 2 - Int.tdiv (WIDTH c) 2),
                     y := m.wy + (Int.tdiv m.wh 2 - Int.tdiv (HEIGHT c) 2) })
        else w
      let c1 := w1.cmap i
      let w2 :=
        if (¬ m.curlt.hasArrange ∨ c1.isfloating) ∧ ¬ c1.isfullscreen then
          resize env w1 i c1.x c1.y c1.w c1.h false
        else w1
      showhide env w2 rest
    else
      showhide env w rest

/-- Count of clients visible on `m` (the first loop of `monocle`). -/
def monocleCount (w : World) (m : Monitor) : Nat :=
  (w.clients.filter (fun i => decide (ISVISIBLE (w.cmap i) m))).length

/-- The resize loop of `monocle`: `for (c = nexttiled(...); c;
c = nexttiled(c->next, m))`, unrolled over the shared client list. -/
def monocleResize (env : Env) (mid : Nat) : World → List Nat → World
  | w, [] => w
  | w, i :: rest =>
    let m := w.mmap mid
    let c := w.cmap i
    if c.isfloating ∨ ¬ ISVISIBLE c m then monocleResize env mid w rest
    else
      monocleResize env mid
        (resize env w i m.wx m.wy (m.ww - 2 * c.bw) (m.wh - 2 * c.bw) false) rest

/-- monocle(m) (dwm.c): count the visible clients, override the layout
symbol with "[n]" when n > 0, and resize every tiled visible client to the
work area shrunk by twice its border width. -/
def monocle (env : Env) (w : World) (mid : Nat) : World :=
  let n := monocleCount w (w.mmap mid)
  let w1 :=
    if n > 0 then
      w.updm mid (fun m => { m with ltsymbol := "[" ++ toString n ++ "]" })
    else w
  monocleResize env mid w1 w1.clients

/-- Modelled from the spec: the tile layout lives in vanitygaps.c, which
config.h includes but which is absent from src/.  Per §4.3: a master column
of `min nmaster n` height-sharing clients occupies `mfact · work width`
(full width when `nmaster = 0` or no stack clients exist), the remaining
clients stack vertically in the right column; outer gaps apply on all four
edges and inner gaps between tiles, multiplied by `smartgaps` when exactly
one tile exists; remainder pixels go to the last tile of a column. -/
def tileResize (env : Env) (mid : Nat) (x0 y0 colw totalh ivgap : Int)
    (cnt : Nat) : World → List Nat → World
  | w, [] => w
  | w, i :: rest =>
    if cnt = 0 then w
    else
      let each := Int.tdiv (totalh - ivgap * (Int.ofNat cnt - 1)) (Int.ofNat cnt)
      let thish := if cnt = 1 then totalh else each
      let c := (w.cmap i)
      let w1 := resize env w i x0 y0 (colw - 2 * c.bw) (thish - 2 * c.bw) false
      tileResize env mid x0 (y0 + thish + ivgap) colw (totalh - thish - ivgap) ivgap
        (cnt - 1) w1 rest

/-- Modelled from the spec: dispatch of the tile layout (see `tileResize`). -/
def tile (env : Env) (w : World) (mid : Nat) : World :=
  let m := w.mmap mid
  let ids := w.clients.filter
    (fun i => decide (¬ (w.cmap i).isfloating ∧ ISVISIBLE (w.cmap i) m))
  let n : Int := Int.ofNat ids.length
  if n = 0 then w
  else
    let mul := if n = 1 then smartgaps else 1
    let oh := m.gappoh * mul
    let ov := m.gappov * mul
    let iv := m.gappiv * mul
    let ih := m.gappih * mul
    let innerx := m.wx + oh
    let innery := m.wy + ov
    let innerw := m.ww - 2 * oh
    let innerh := m.wh - 2 * ov
    let nm : Int := min m.nmaster n
    let nmN : Nat := min m.nmaster.toNat ids.length
    if m.nmaster ≤ 0 ∨ n ≤ nm then
      tileResize env mid innerx innery innerw innerh iv ids.length w ids
    else
      let masterw := ctrunc ((innerw : ℚ) * m.mfact)
      let w1 := tileResize env mid innerx innery masterw innerh iv nmN w (ids.take nmN)
      tileResize env mid (innerx + masterw + ih) innery (innerw - masterw - ih)
        innerh iv (ids.length - nmN) w1 (ids.drop nmN)

/-- arrangemon(m): copy the layout symbol, then run the layout's arrange
function if it has one. -/
def arrangemon (env : Env) (w : World) (mid : Nat) : World :=
  let w1 := w.updm mid (fun m => { m with ltsymbol := m.curlt.symbol })
  match (w1.mmap mid).curlt with
  | .floating => w1
  | .monocle => monocle env w1 mid
  | .tile => tile env w1 mid

/-- restack(m) only draws the bar, raises/lowers X windows and possibly
warps the pointer: no modelled state changes. -/
def restack (w : World) (_mid : Nat) : World := w

/-- arrange(m) for a non-NULL monitor: showhide over the shared stack, then
arrangemon and restack. -/
def arrange (env : Env) (w : World) (mid : Nat) : World :=
  let w1 := showhide env w w.stack
  let w2 := arrangemon env w1 mid
  restack w2 mid

/-! ### Focus -/

/-- focus(c) as in dwm.c: possibly switch `selmon` to the client's monitor,
fall back to the first visible stack client, clear urgency, promote to the
stack head and record the selection; border colours, button grabs,
`WM_TAKE_FOCUS` and bar drawing are X-server-side only. -/
def focus (w : World) (copt : Option Nat) : World :=
  let w1 :=
    match copt with
    | some i => if (w.cmap i).mon ≠ w.selmon then { w with selmon := (w.cmap i).mon } else w
    | none => w
  let c : Option Nat :=
    match copt with
    | some i =>
      if ISVISIBLE (w1.cmap i) (w1.mmap w1.selmon) then some i
      else firstVisible w1 (w1.mmap w1.selmon) w1.stack
    | none => firstVisible w1 (w1.mmap w1.selmon) w1.stack
  match c with
  | some i =>
    let w2 := if (w1.cmap i).mon ≠ w1.selmon then { w1 with selmon := (w1.cmap i).mon } else w1
    let w3 := if (w2.cmap i).isurgent then seturgent w2 i false else w2
    let w4 := attachstack (detachstack w3 i) i
    w4.updm w4.selmon (fun m => { m with sel := some i })
  | none =>
    w1.updm w1.selmon (fun m => { m with sel := none })

/-! ### Multi-monitor tag discipline -/

/-- Bitwise union of the displayed tagsets of all monitors except `mid`
(the `utags` computation of `attachclients`). -/
def utagsExcept (w : World) (mid : Nat) : Nat :=
  w.mons.foldl (fun acc tm => if tm ≠ mid then acc ||| (w.mmap tm).curtags else acc) 0

/-- The per-client loop of `attachclients`: clients visible on `m` lose the
tag bits displayed on other monitors and are re-owned by `m`; the returned
flag records whether any tags were stripped (`rmons`). -/
def attachclientsLoop (mid : Nat) (mcur utags : Nat) :
    World → List Nat → Bool → World × Bool
  | w, [], rmons => (w, rmons)
  | w, i :: rest, rmons =>
    let c := w.cmap i
    if c.tags &&& mcur ≠ 0 then
      let w1 :=
        if c.tags &&& utags ≠ 0 then
          w.updc i (fun c => { c with tags := c.tags &&& mcur })
        else w
      let w2 := w1.updc i (fun c => { c with mon := mid })
      attachclientsLoop mid mcur utags w2 rest
        (rmons ∨ c.tags &&& utags ≠ 0)
    else attachclientsLoop mid mcur utags w rest rmons

/-- attachclients(m): strip foreign tag bits from the clients visible on
`m`, set their `mon` to `m`, and re-arrange the monitors that lost
clients (`unfocus` has no modelled effect). -/
def attachclients (env : Env) (w : World) (mid : Nat) : World :=
  let utags := utagsExcept w mid
  let mcur := (w.mmap mid).curtags
  let r := attachclientsLoop mid mcur utags w w.clients false
  if r.2 then
    r.1.mons.foldl (fun w tm => if tm ≠ mid then arrange env w tm else w) r.1
  else r.1

/-- The `for (i = 1; i < occupied; i <<= 1)` loop of `findfirstunusedtag`,
with fuel: 64 doublings cover every value a 32-bit tagset union can take. -/
def ffutLoop (occupied : Nat) : Nat → Nat → Nat
  | _, 0 => 0
  | i, fuel + 1 =>
    if i < occupied then
      if i &&& occupied = 0 then i else ffutLoop occupied (i <<< 1) fuel
    else 0

/-- findfirstunusedtag(): union the displayed tagsets and return the first
power of two `i` with `i < occupied` and `i & occupied == 0`, 0 if none. -/
def findfirstunusedtag (w : World) : Nat :=
  let occupied := w.mons.foldl (fun acc m => acc ||| (w.mmap m).curtags) 0
  ffutLoop occupied 1 64

/-- updateclientlist(): rebuild `_NET_CLIENT_LIST` by appending, for every
monitor in order, the windows of `m->cl->clients` — the single shared
client list — and `_NET_CLIENT_LIST_STACKING` likewise from
`m->cl->stack`. -/
def updateclientlist (w : World) : World :=
  { w with
    netClientList :=
      (w.mons.map (fun _ => w.clients.map (fun i => (w.cmap i).win))).flatten,
    netClientListStacking :=
      (w.mons.map (fun _ => w.stack.map (fun i => (w.cmap i).win))).flatten }

/-- The `while (*rawdata >> (i+1)) i++` loop of `updatecurrentdesktop`,
with fuel: 64 steps cover every 32-bit tagset. -/
def highestBitLoop (t : Nat) : Nat → Nat → Nat
  | i, 0 => i
  | i, fuel + 1 => if t >>> (i + 1) ≠ 0 then highestBitLoop t (i + 1) fuel else i

/-- updatecurrentdesktop(): publish the index of the highest bit of the
selected monitor's displayed tagset as `_NET_CURRENT_DESKTOP`. -/
def updatecurrentdesktop (w : World) : World :=
  { w with netCurrentDesktop :=
      Int.ofNat (highestBitLoop (w.mmap w.selmon).curtags 0 64) }

/-- The monitor loop of `toggleview`: every other monitor whose displayed
tagset meets the new tagset has the toggled mask XOR-ed out; a monitor left
with an empty tagset receives `findfirstunusedtag()`; its selection is
cleared and its clients re-attached and re-arranged. -/
def toggleviewLoop (env : Env) (selmonId : Nat) (newtagset masked : Nat) :
    World → List Nat → World
  | w, [] => w
  | w, mid :: rest =>
    let w1 :=
      if mid ≠ selmonId ∧ newtagset &&& (w.mmap mid).curtags ≠ 0 then
        let w1 := w.updm mid (fun m => m.setcurtags (m.curtags ^^^ masked))
        let w2 :=
          if (w1.mmap mid).curtags = 0 then
            w1.updm mid (fun m => m.setcurtags (m.curtags ||| findfirstunusedtag w1))
          else w1
        let w3 := w2.updm mid (fun m => { m with sel := none })
        arrange env (attachclients env w3 mid) mid
      else w
    toggleviewLoop env selmonId newtagset masked w1 rest

/-- toggleview(arg): XOR the masked argument into the selected monitor's
displayed tagset, transferring bits owned by other monitors first. -/
def toggleview (env : Env) (w : World) (ui : Nat) : World :=
  let newtagset := (w.mmap w.selmon).curtags ^^^ (ui &&& TAGMASK)
  let w1 := toggleviewLoop env w.selmon newtagset (ui &&& TAGMASK) w w.mons
  let w2 := w1.updm w1.selmon (fun m => m.setcurtags newtagset)
  let w3 := arrange env (attachclients env w2 w2.selmon) w2.selmon
  updatecurrentdesktop (focus w3 none)

/-- The fullscreen loop of `view`: clear `isfullscreen` on every client of
the new view, remembering the last such client when their count is odd
(`fs = fs ? NULL : c`). -/
def viewFsLoop (newtagset : Nat) :
    World → List Nat → Option Nat → World × Option Nat
  | w, [], fs => (w, fs)
  | w, i :: rest, fs =>
    let c := w.cmap i
    if ¬ (c.isfullscreen ∧ c.tags &&& newtagset ≠ 0) then
      viewFsLoop newtagset w rest fs
    else
      viewFsLoop newtagset (w.updc i (fun c => { c with isfullscreen := false })) rest
        (match fs with | some _ => none | none => some i)

/-- The first monitor other than `selmon` whose displayed tagset meets
`newtagset` (the swap loop of `view` breaks after the first hit). -/
def findSwapMon (w : World) (newtagset : Nat) : Option Nat :=
  w.mons.find? (fun mid =>
    decide (mid ≠ w.selmon ∧ newtagset &&& (w.mmap mid).curtags ≠ 0))

/-- Tail of `view` after the monitor-swap loop: toggle `seltags`, install
the new tagset, run the fullscreen policy, re-attach and re-arrange, maybe
re-fullscreen the surviving client, focus and publish the desktop (the
final `warp` is X-server-side only). -/
def viewRest (env : Env) (w : World) (ui newtagset : Nat) : World :=
  let w1 := w.updm w.selmon (fun m => { m with seltags := ¬ m.seltags })
  let w2 :=
    if ui &&& TAGMASK ≠ 0 then
      w1.updm w1.selmon (fun m => m.setcurtags (ui &&& TAGMASK))
    else w1
  let r := viewFsLoop newtagset w2 w2.clients none
  let w3 := arrange env (attachclients env r.1 r.1.selmon) r.1.selmon
  let w4 :=
    match r.2 with
    | some i =>
      let w4 := w3.updc i (fun c => { c with isfullscreen := true })
      let m := w4.mmap (w4.cmap i).mon
      resizeclient w4 i m.mx m.my m.mw m.mh
    | none => w3
  updatecurrentdesktop (focus w4 none)

/-- view(arg): switch the selected monitor to a new tagset, swapping
tagsets with the monitor that currently displays it if any, and apply the
fullscreen tag-switch policy. -/
def view (env : Env) (w : World) (ui : Nat) : World :=
  let sm := w.mmap w.selmon
  if ui ≠ 0 ∧ ui &&& TAGMASK = sm.curtags then w
  else
    let newtagset :=
      if ui &&& TAGMASK ≠ 0 then ui &&& TAGMASK
      else if sm.seltags then sm.tagset0 else sm.tagset1
    match findSwapMon w newtagset with
    | some mid =>
      if newtagset &&& sm.curtags ≠ 0 then w
      else
        let w1 := w.updm mid (fun m =>
          ({ m with sel := sm.sel, seltags := ¬ m.seltags }).setcurtags sm.curtags)
        let w2 := arrange env (attachclients env w1 mid) mid
        viewRest env w2 ui newtagset
    | none => viewRest env w ui newtagset

/-! ### Fullscreen, mfact, swallowing -/

/-- setfullscreen(c, fullscreen) (dwm.c): entering fullscreen saves the
float flag and border width, zeroes the border, floats the client and
resizes it to the whole monitor; leaving restores the saved flags and the
`old*` geometry and re-arranges (`_NET_WM_STATE` and the raise are
X-server-side only). -/
def setfullscreen (env : Env) (w : World) (i : Nat) (fullscreen : Bool) : World :=
  let c := w.cmap i
  if fullscreen ∧ ¬ c.isfullscreen then
    let w1 := w.updc i (fun c =>
      { c with isfullscreen := true, oldstate := c.isfloating,
               oldbw := c.bw, bw := 0, isfloating := true })
    let m := w1.mmap (w1.cmap i).mon
    resizeclient w1 i m.mx m.my m.mw m.mh
  else if ¬ fullscreen ∧ c.isfullscreen then
    let w1 := w.updc i (fun c =>
      { c with isfullscreen := false, isfloating := c.oldstate, bw := c.oldbw,
               x := c.oldx, y := c.oldy, w := c.oldw, h := c.oldh })
    let c1 := w1.cmap i
    let w2 := resizeclient w1 i c1.x c1.y c1.w c1.h
    arrange env w2 (w2.cmap i).mon
  else w

/-- setmfact(arg): adjust the selected monitor's master factor, relatively
for `arg < 1.0` and absolutely (minus 1.0) otherwise; values outside
[0.05, 0.95] make the call a no-op. -/
def setmfact (env : Env) (w : World) (argf : ℚ) : World :=
  let m := w.mmap w.selmon
  if ¬ m.curlt.hasArrange then w
  else
    let f := if argf < 1 then argf + m.mfact else argf - 1
    if f < 1/20 ∨ f > 19/20 then w
    else arrange env (w.updm w.selmon (fun m => { m with mfact := f })) w.selmon

/-- updatetitle(c): read the window's title property into `c->name`,
falling back to "broken" when it is empty. -/
def updatetitle (env : Env) (w : World) (i : Nat) : World :=
  w.updc i (fun c =>
    { c with name := if env.titles c.win = "" then "broken" else env.titles c.win })

/-- swallow(p, c) (dwm.c): bail out if the child refuses swallowing or is a
terminal itself (the second guard repeats `noswallow` and cannot fire);
otherwise detach the child from both lists, record it in `p->swallowing`,
move it to `p`'s monitor, swap the two window handles, refresh the title,
re-arrange and republish the client list (`setclientstate`, unmap, the
XMoveResizeWindow and `configure` are X-server-side only). -/
def swallow (env : Env) (w : World) (p c : Nat) : World :=
  if (w.cmap c).noswallow ∨ (w.cmap c).isterminal then w
  else if (w.cmap c).noswallow ∧ ¬ swallowfloating ∧ (w.cmap c).isfloating then w
  else
    let w1 := detachstack (detach w c) c
    let w2 := w1.updc p (fun pc => { pc with swallowing := some c })
    let w3 := w2.updc c (fun cc => { cc with mon := (w2.cmap p).mon })
    let pwin := (w3.cmap p).win
    let cwin := (w3.cmap c).win
    let w4 := (w3.updc p (fun pc => { pc with win := cwin })).updc c
      (fun cc => { cc with win := pwin })
    let w5 := updatetitle env w4 p
    let w6 := arrange env w5 ((w5.cmap p).mon)
    updateclientlist w6

/-- The spec's reading of `swallow` without the dead second guard, used to
state that the `noswallow && !swallowfloating && c->isfloating` branch
never decides the outcome. -/
def swallowNoDeadGuard (env : Env) (w : World) (p c : Nat) : World :=
  if (w.cmap c).noswallow ∨ (w.cmap c).isterminal then w
  else
    let w1 := detachstack (detach w c) c
    let w2 := w1.updc p (fun pc => { pc with swallowing := some c })
    let w3 := w2.updc c (fun cc => { cc with mon := (w2.cmap p).mon })
    let pwin := (w3.cmap p).win
    let cwin := (w3.cmap c).win
    let w4 := (w3.updc p (fun pc => { pc with win := cwin })).updc c
      (fun cc => { cc with win := pwin })
    let w5 := updatetitle env w4 p
    let w6 := arrange env w5 ((w5.cmap p).mon)
    updateclientlist w6

/-! ### The floating-position DSL: sscanf "%d%c %d%c %d%c %d%c" and
getfloatpos -/

/-- Whitespace in the C locale (isspace), as skipped by sscanf. -/
def isCSpace (ch : Char) : Bool :=
  ch = ' ' ∨ ch = '\t' ∨ ch = '\n' ∨ ch = '\x0b' ∨ ch = '\x0c' ∨ ch = '\r'

/-- sscanf's %d: skip whitespace, then an optional sign and at least one
digit; returns the value and the rest of the input. -/
def scanInt (l : List Char) : Option (Int × List Char) :=
  let l := l.dropWhile isCSpace
  let sgnRest : Bool × List Char :=
    match l with
    | '-' :: r => (true, r)
    | '+' :: r => (false, r)
    | _ => (false, l)
  let digits := sgnRest.2.takeWhile Char.isDigit
  if digits = [] then none
  else
    let v : Int := Int.ofNat (digits.foldl (fun acc d => acc * 10 + (d.toNat - 48)) 0)
    some (if sgnRest.1 then -v else v, sgnRest.2.dropWhile Char.isDigit)

/-- sscanf's %c: the next input character, without skipping whitespace. -/
def scanChar (l : List Char) : Option (Char × List Char) :=
  match l with
  | [] => none
  | ch :: r => some (ch, r)

/-- Result of sscanf(floatpos, "%d%c %d%c %d%c %d%c", ...): the number of
conversions assigned, and the eight values; fields the scan did not reach
keep the C locals' unspecified initial contents, modelled as 0 / NUL. -/
structure ScanResult where
  cnt : Nat
  x : Int
  xCh : Char
  y : Int
  yCh : Char
  wv : Int
  wCh : Char
  hv : Int
  hCh : Char
deriving DecidableEq

/-- One %d%c pair preceded (except the first) by a literal blank, which
skips any whitespace and never fails. -/
def scanPair (l : List Char) : Option (Int × Char × List Char) :=
  match scanInt l with
  | none => none
  | some (v, r) =>
    match scanChar r with
    | none => none
    | some (ch, r2) => some (v, ch, r2)

/-- Full scan of the "%d%c %d%c %d%c %d%c" format. -/
def scanFloatpos (s : String) : ScanResult :=
  let l := s.toList
  match scanPair l with
  | none =>
    match scanInt l with
    | some _ => ⟨1, 0, '\x00', 0, '\x00', 0, '\x00', 0, '\x00'⟩
    | none => ⟨0, 0, '\x00', 0, '\x00', 0, '\x00', 0, '\x00'⟩
  | some (x, xCh, r1) =>
    match scanPair r1 with
    | none =>
      match scanInt r1 with
      | some _ => ⟨3, x, xCh, 0, '\x00', 0, '\x00', 0, '\x00'⟩
      | none => ⟨2, x, xCh, 0, '\x00', 0, '\x00', 0, '\x00'⟩
    | some (y, yCh, r2) =>
      match scanPair r2 with
      | none =>
        match scanInt r2 with
        | some _ => ⟨5, x, xCh, y, yCh, 0, '\x00', 0, '\x00'⟩
        | none => ⟨4, x, xCh, y, yCh, 0, '\x00', 0, '\x00'⟩
      | some (wv, wCh, r3) =>
        match scanPair r3 with
        | none =>
          match scanInt r3 with
          | some _ => ⟨7, x, xCh, y, yCh, wv, wCh, 0, '\x00'⟩
          | none => ⟨6, x, xCh, y, yCh, wv, wCh, 0, '\x00'⟩
        | some (hv, hCh, _) => ⟨8, x, xCh, y, yCh, wv, wCh, hv, hCh⟩

/-- The position-search loop of getfloatpos's grid branch:
`for (i = 0; i < pos && cp >= ...; i++);`. -/
def gridLoop (pos min_p delta rest cp : Int) : Int → Nat → Int
  | i, 0 => i
  | i, fuel + 1 =>
    if i < pos ∧ cp ≥ min_p + delta * i + (if i > pos - rest then i + rest - pos + 1 else 0) then
      gridLoop pos min_p delta rest cp (i + 1) fuel
    else i

/-- getfloatpos (dwm.c): compute one axis of a floating placement from a
position value/code and size value/code; returns the new position and size
(the C function writes them through `out_p`/`out_s`). -/
def getfloatpos (pos : Int) (pCh : Char) (size : Int) (sCh : Char)
    (min_p max_s cp cs cbw defgrid : Int) : Int × Int :=
  let abs_p := pCh = 'A' ∨ pCh = 'a'
  let abs_s := sCh = 'A' ∨ sCh = 'a'
  let cs := cs + 2 * cbw
  let st : Int × Int × Int × Char :=  -- (pos, cp, cs, sCh) after the position switch
    if pCh = 'A' then (pos, pos, cs, sCh)
    else if pCh = 'a' then (pos, cp + pos, cs, sCh)
    else if pCh = 'y' ∨ pCh = 'x' then (pos, min (cp + pos) (min_p + max_s), cs, sCh)
    else if pCh = 'Y' ∨ pCh = 'X' then (pos, min_p + min pos max_s, cs, sCh)
    else if pCh = 'S' ∨ pCh = 'C' ∨ pCh = 'Z' then
      if pos = -1 then (pos, cp, cs, sCh)
      else
        let pos := max (min pos max_s) 0
        let cs :=
          if pCh = 'Z' then abs ((cp + cs) - (min_p + pos))
          else if pCh = 'C' then abs ((cp + Int.tdiv cs 2) - (min_p + pos))
          else abs (cp - (min_p + pos))
        (pos, min_p + pos, cs, '\x00')
    else if pCh = 'G' then
      let pos := if pos ≤ 0 then defgrid else pos
      if size = 0 ∨ pos < 2 ∨ (sCh ≠ 'p' ∧ sCh ≠ 'P') then (pos, cp, cs, sCh)
      else
        let delta := Int.tdiv (max_s - cs) (pos - 1)
        let rest := max_s - cs - delta * (pos - 1)
        if sCh = 'P' then
          if size < 1 ∨ size > pos then (pos, cp, cs, sCh)
          else (pos, min_p + delta * (size - 1), cs, sCh)
        else
          let i := gridLoop pos min_p delta rest cp 0 (pos.toNat + 1)
          (pos, min_p + delta * (max (min (i + size) pos) 1 - 1)
            + (if i > pos - rest then i + rest - pos + 1 else 0), cs, sCh)
    else (pos, cp, cs, sCh)
  let pos := st.1
  let cp := st.2.1
  let cs := st.2.2.1
  let sCh := st.2.2.2
  -- size switch; the %, h, w cases fall through into the H/W case
  let st2 : Int × Int :=  -- (cp, cs) after the size switch
    if sCh = 'A' then (cp, size)
    else if sCh = 'a' then (cp, max 1 (cs + size))
    else
      let sz : Option Int :=  -- the size reaching the shared H/W tail, if any
        if sCh = '%' then
          if size ≤ 0 then none else some (Int.tdiv (max_s * min size 100) 100)
        else if sCh = 'h' ∨ sCh = 'w' then
          if size = 0 then none else some (size + cs)
        else if sCh = 'H' ∨ sCh = 'W' then some size
        else none
      match sz with
      | none => (cp, cs)
      | some size =>
        let size :=
          if pCh = 'S' ∧ cp + size > min_p + max_s then min_p + max_s - cp
          else if size > max_s then max_s
          else size
        let cp :=
          if pCh = 'C' then
            let delta := size - cs
            if delta < 0 ∨ cp - Int.tdiv delta 2 + size ≤ min_p + max_s then
              cp - Int.tdiv delta 2
            else if cp - Int.tdiv delta 2 < min_p then min_p
            else if delta ≠ 0 then min_p + max_s
            else cp
          else if pCh = 'Z' then cp - (size - cs)
          else cp
        (cp, size)
  let cp := st2.1
  let cs := st2.2
  let cp :=
    if pCh = '%' then min_p + Int.tdiv (max_s * max (min pos 100) 0) 100 - Int.tdiv cs 2
    else cp
  let cp := if pCh = 'm' ∨ pCh = 'M' then pos - Int.tdiv cs 2 else cp
  let cp := if ¬ abs_p ∧ cp < min_p then min_p else cp
  let pr : Int × Int :=
    if cp + cs > min_p + max_s ∧ ¬ (abs_p ∧ abs_s) then
      if abs_p ∨ cp = min_p then (cp, min_p + max_s - cp)
      else (min_p + max_s - cs, cs)
    else (cp, cs)
  (pr.1, max (pr.2 - 2 * cbw) 1)

/-- setfloatpos(c, floatpos) (dwm.c): no-op under an active layout for a
non-floating client and for strings that do not scan as the 4- or 8-token
form; otherwise set `ignoresizehints` and recompute both axes with
`getfloatpos` relative to the client's monitor's work area. -/
def setfloatpos (env : Env) (w : World) (i : Nat) (floatpos : String) : World :=
  if (w.mmap w.selmon).curlt.hasArrange ∧ ¬ (w.cmap i).isfloating then w
  else
    let r := scanFloatpos floatpos
    let vals : Option (Int × Char × Int × Char × Int × Char × Int × Char) :=
      if r.cnt = 4 then
        if r.xCh = 'w' ∨ r.xCh = 'W' then
          some (-1, 'C', -1, 'C', r.x, r.xCh, r.y, r.yCh)
        else if r.xCh = 'p' ∨ r.xCh = 'P' then
          some (0, 'G', 0, 'G', r.x, r.xCh, r.y, r.yCh)
        else if r.xCh = 'm' ∨ r.xCh = 'M' then
          some (env.ptrx, r.xCh, env.ptry, r.yCh, r.wv, r.wCh, r.hv, r.hCh)
        else
          some (r.x, r.xCh, r.y, r.yCh, 0, '\x00', 0, '\x00')
      else if r.cnt = 8 then
        if r.xCh = 'm' ∨ r.xCh = 'M' then
          some (env.ptrx, r.xCh, env.ptry, r.yCh, r.wv, r.wCh, r.hv, r.hCh)
        else some (r.x, r.xCh, r.y, r.yCh, r.wv, r.wCh, r.hv, r.hCh)
      else none
    match vals with
    | none => w
    | some (x, xCh, y, yCh, wv, wCh, hv, hCh) =>
      let c := w.cmap i
      let m := w.mmap c.mon
      let w1 := w.updc i (fun c => { c with ignoresizehints := true })
      let px := getfloatpos x xCh wv wCh m.wx m.ww c.x c.w c.bw floatposgrid_x
      let py := getfloatpos y yCh hv hCh m.wy m.wh c.y c.h c.bw floatposgrid_y
      w1.updc i (fun c => { c with x := px.1, w := px.2, y := py.1, h := py.2 })

/-! ### Observation tuples used by the preservation lemmas -/

/-- Client fields untouched by the geometry pipeline (resize, arrange,
focus): tags, monitor, fullscreen/floating flags, window handle and the
swallowing pointer. -/
def cviewA (c : Client) : Nat × Nat × Bool × Bool × Nat × Option Nat :=
  (c.tags, c.mon, c.isfullscreen, c.isfloating, c.win, c.swallowing)

/-- Client fields untouched even by `attachclients` (which rewrites tags
and monitor). -/
def cviewB (c : Client) : Bool × Bool × Nat × Option Nat :=
  (c.isfullscreen, c.isfloating, c.win, c.swallowing)

/-- Monitor fields untouched by the arrange/focus pipeline (which writes
only `sel` and `ltsymbol`). -/
def mview (m : Monitor) : Nat × Nat × Bool × Bool × Layout × Layout × ℚ :=
  (m.tagset0, m.tagset1, m.seltags, m.sellt, m.lt0, m.lt1, m.mfact)

/-- World fields untouched by operations that modify neither the lists nor
the selected monitor. -/
def skel (w : World) : List Nat × List Nat × List Nat × Nat :=
  (w.clients, w.stack, w.mons, w.selmon)

/-- The clients that the fullscreen loop of `view` touches: fullscreen and
about to be visible on the new tagset. -/
def fsCandidates (w : World) (ts : Nat) : List Nat :=
  w.clients.filter (fun i =>
    decide ((w.cmap i).isfullscreen = true ∧ (w.cmap i).tags &&& ts ≠ 0))

/-- The accumulator dynamics of the `fs = fs ? NULL : c` toggle in `view`,
restricted to the matching clients. -/
def toggleFold : Option Nat → List Nat → Option Nat
  | fs, [] => fs
  | fs, i :: rest => toggleFold (match fs with | some _ => none | none => some i) rest

/-- The union of all displayed tagsets with one monitor's contribution
zeroed: the `occupied` value `findfirstunusedtag` sees right after
`toggleview` empties that monitor. -/
def occupiedExcept (w : World) (mid : Nat) : Nat :=
  w.mons.foldl (fun acc m => acc ||| (if m = mid then 0 else (w.mmap m).curtags)) 0

/-! ### Concrete sample data for witnesses and counterexamples -/

/-- An X environment with a 1920x1080 screen, bar height 20, the pointer
at the origin and constant window titles. -/
def sampleEnv : Env := ⟨1920, 1080, 20, 0, 0, fun _ => "title"⟩

/-- A plain tiled client on tag 1 with border width 2 (borderpx) and no
size hints. -/
def sampleClient : Client :=
  { win := 100, name := "c", x := 0, y := 0, w := 100, h := 100,
    oldx := 0, oldy := 0, oldw := 0, oldh := 0,
    basew := 0, baseh := 0, incw := 0, inch := 0, maxw := 0, maxh := 0,
    minw := 0, minh := 0, mina := 0, maxa := 0, bw := 2, oldbw := 2,
    tags := 1, isfixed := false, isfloating := false, isurgent := false,
    neverfocus := false, oldstate := false, isfullscreen := false,
    ignoresizehints := false, beingmoved := false, isterminal := false,
    noswallow := false, mon := 0, swallowing := none }

/-- A monitor with the config.h gap values (gappoh 10, gappov 30), a
top bar of height 20, displaying tag 1 in the monocle layout. -/
def sampleMon : Monitor :=
  { num := 0, mx := 0, my := 0, mw := 1920, mh := 1080,
    wx := 0, wy := 20, ww := 1920, wh := 1060,
    gappih := 20, gappiv := 20, gappoh := 10, gappov := 30,
    mfact := 11/20, nmaster := 1, seltags := false, sellt := false,
    tagset0 := 1, tagset1 := 1, showbar := true, sel := none,
    lt0 := Layout.monocle, lt1 := Layout.monocle, ltsymbol := "[M]" }

/-- One monocle monitor showing tag 1; three floating fullscreen clients
(ids 1-3, windows 101-103) on tag 2. -/
def worldThreeFs : World :=
  { clients := [1, 2, 3], stack := [1, 2, 3],
    cmap := fun j =>
      { sampleClient with win := 100 + j, tags := 2,
                          isfullscreen := true, isfloating := true },
    mons := [0], mmap := fun _ => sampleMon, selmon := 0,
    netClientList := [], netClientListStacking := [], netCurrentDesktop := 0,
    conf := [] }

/-- Two monitors: monitor 0 (selected) shows tag 1, monitor 1 shows tag 2;
one client (window 100) on tag 1. -/
def worldTwoMons : World :=
  { clients := [1], stack := [1],
    cmap := fun _ => sampleClient,
    mons := [0, 1],
    mmap := fun j =>
      if j = 1 then { sampleMon with num := 1, tagset0 := 2, tagset1 := 2 }
      else sampleMon,
    selmon := 0,
    netClientList := [], netClientListStacking := [], netCurrentDesktop := 0,
    conf := [] }

/-- One monocle monitor whose work area is the whole 1920x1080 screen and
a single tiled client (window 100) of size 100x100. -/
def worldOneTiled : World :=
  { clients := [1], stack := [1],
    cmap := fun _ => sampleClient,
    mons := [0],
    mmap := fun _ => { sampleMon with wy := 0, wh := 1080 },
    selmon := 0,
    netClientList := [], netClientListStacking := [], netCurrentDesktop := 0,
    conf := [] }

/-- Like `worldOneTiled` but the client floats at (50, 60) sized 300x200. -/
def worldOneFloat : World :=
  { worldOneTiled with
    cmap := fun _ =>
      { sampleClient with isfloating := true, x := 50, y := 60, w := 300, h := 200 } }

/-- Like `worldOneTiled` but the client is flagged `beingmoved`. -/
def worldBeingMoved : World :=
  { worldOneTiled with
    cmap := fun _ => { sampleClient with beingmoved := true } }

/-- A floating-layout monitor with a floating client, for the float-position
engine. -/
def worldFloatLayout : World :=
  { worldOneTiled with
    cmap := fun _ => { sampleClient with isfloating := true, bw := 0 },
    mmap := fun _ =>
      { sampleMon with wy := 0, wh := 1080,
                       lt0 := Layout.floating, lt1 := Layout.floating } }

/-- One terminal parent (id 1) and one swallowable child (id 2). -/
def worldSwallow : World :=
  { clients := [2, 1], stack := [2, 1],
    cmap := fun j =>
      if j = 2 then { sampleClient with win := 200, mon := 0 }
      else { sampleClient with win := 100, isterminal := true },
    mons := [0],
    mmap := fun _ => { sampleMon with wy := 0, wh := 1080 },
    selmon := 0,
    netClientList := [], netClientListStacking := [], netCurrentDesktop := 0,
    conf := [] }

/-- Side conditions under which `resize`(c, c->x, c->y, c->w, c->h, 0) leaves
the world unchanged: the client is floating, not fullscreen, not on a
scratchpad tag, has trivial ICCCM size hints, a geometry of at least bar
height in both directions, and overlaps its monitor's window area. -/
def inert (env : Env) (w : World) (i : Nat) : Prop :=
  (w.cmap i).isfloating = true ∧ (w.cmap i).isfullscreen = false ∧
  (w.cmap i).tags &&& SPTAGMASK = 0 ∧
  (w.cmap i).basew = 0 ∧ (w.cmap i).baseh = 0 ∧
  (w.cmap i).minw = 0 ∧ (w.cmap i).minh = 0 ∧
  (w.cmap i).incw = 0 ∧ (w.cmap i).inch = 0 ∧
  (w.cmap i).maxw = 0 ∧ (w.cmap i).maxh = 0 ∧
  (w.cmap i).mina = 0 ∧
  1 ≤ (w.cmap i).w ∧ 1 ≤ (w.cmap i).h ∧
  env.bh ≤ (w.cmap i).w ∧ env.bh ≤ (w.cmap i).h ∧
  (w.cmap i).x < (w.mmap (w.cmap i).mon).wx + (w.mmap (w.cmap i).mon).ww ∧
  (w.cmap i).y < (w.mmap (w.cmap i).mon).wy + (w.mmap (w.cmap i).mon).wh ∧
  (w.mmap (w.cmap i).mon).wx < (w.cmap i).x + (w.cmap i).w + 2 * (w.cmap i).bw ∧
  (w.mmap (w.cmap i).mon).wy < (w.cmap i).y + (w.cmap i).h + 2 * (w.cmap i).bw

/-- The `occupied` union computed by `findfirstunusedtag`: the bitwise or
of every monitor's displayed tagset. -/
def occupiedAll (w : World) : Nat :=
  w.mons.foldl (fun acc m => acc ||| (w.mmap m).curtags) 0

/-- The body of the `toggleview` monitor loop for one affected monitor:
XOR out the masked bits, re-fill an emptied tagset from
`findfirstunusedtag`, clear the selection, re-attach and re-arrange. -/
def tvStep (env : Env) (masked : Nat) (w : World) (mid : Nat) : World :=
  let w1 := w.updm mid (fun m => m.setcurtags (m.curtags ^^^ masked))
  let w2 :=
    if (w1.mmap mid).curtags = 0 then
      w1.updm mid (fun m => m.setcurtags (m.curtags ||| findfirstunusedtag w1))
    else w1
  let w3 := w2.updm mid (fun m => { m with sel := none })
  arrange env (attachclients env w3 mid) mid

/-! ### Basic projection lemmas -/

theorem updc_cmap (w : World) (i : Nat) (f : Client → Client) (j : Nat) :
    (w.updc i f).cmap j = if j = i then f (w.cmap j) else w.cmap j := rfl

theorem updm_mmap (w : World) (i : Nat) (f : Monitor → Monitor) (j : Nat) :
    (w.updm i f).mmap j = if j = i then f (w.mmap j) else w.mmap j := rfl

theorem updc_mmap (w : World) (i : Nat) (f : Client → Client) :
    (w.updc i f).mmap = w.mmap := rfl

theorem updm_cmap (w : World) (i : Nat) (f : Monitor → Monitor) :
    (w.updm i f).cmap = w.cmap := rfl

theorem updc_skel (w : World) (i : Nat) (f : Client → Client) :
    skel (w.updc i f) = skel w := rfl

theorem updm_skel (w : World) (i : Nat) (f : Monitor → Monitor) :
    skel (w.updm i f) = skel w := rfl

theorem skel_clients {w w' : World} (h : skel w = skel w') : w.clients = w'.clients :=
  congrArg (fun p => p.1) h

theorem skel_stack {w w' : World} (h : skel w = skel w') : w.stack = w'.stack :=
  congrArg (fun p => p.2.1) h

theorem skel_mons {w w' : World} (h : skel w = skel w') : w.mons = w'.mons :=
  congrArg (fun p => p.2.2.1) h

theorem skel_selmon {w w' : World} (h : skel w = skel w') : w.selmon = w'.selmon :=
  congrArg (fun p => p.2.2.2) h

theorem mview_curtags {m m' : Monitor} (h : mview m = mview m') :
    m.curtags = m'.curtags := by
  have h0 : m.tagset0 = m'.tagset0 := congrArg (fun p => p.1) h
  have h1 : m.tagset1 = m'.tagset1 := congrArg (fun p => p.2.1) h
  have h2 : m.seltags = m'.seltags := congrArg (fun p => p.2.2.1) h
  simp [Monitor.curtags, h0, h1, h2]

theorem mview_curlt {m m' : Monitor} (h : mview m = mview m') :
    m.curlt = m'.curlt := by
  have h0 : m.sellt = m'.sellt := congrArg (fun p => p.2.2.2.1) h
  have h1 : m.lt0 = m'.lt0 := congrArg (fun p => p.2.2.2.2.1) h
  have h2 : m.lt1 = m'.lt1 := congrArg (fun p => p.2.2.2.2.2.1) h
  simp [Monitor.curlt, h0, h1, h2]

theorem mview_mfact {m m' : Monitor} (h : mview m = mview m') :
    m.mfact = m'.mfact :=
  congrArg (fun p => p.2.2.2.2.2.2) h

theorem cviewA_tags {c c' : Client} (h : cviewA c = cviewA c') : c.tags = c'.tags :=
  congrArg (fun p => p.1) h

theorem cviewA_mon {c c' : Client} (h : cviewA c = cviewA c') : c.mon = c'.mon :=
  congrArg (fun p => p.2.1) h

theorem cviewA_isfullscreen {c c' : Client} (h : cviewA c = cviewA c') :
    c.isfullscreen = c'.isfullscreen :=
  congrArg (fun p => p.2.2.1) h

theorem cviewA_isfloating {c c' : Client} (h : cviewA c = cviewA c') :
    c.isfloating = c'.isfloating :=
  congrArg (fun p => p.2.2.2.1) h

theorem cviewA_win {c c' : Client} (h : cviewA c = cviewA c') : c.win = c'.win :=
  congrArg (fun p => p.2.2.2.2.1) h

theorem cviewA_swallowing {c c' : Client} (h : cviewA c = cviewA c') :
    c.swallowing = c'.swallowing :=
  congrArg (fun p => p.2.2.2.2.2) h

theorem cviewB_isfullscreen {c c' : Client} (h : cviewB c = cviewB c') :
    c.isfullscreen = c'.isfullscreen :=
  congrArg (fun p => p.1) h

theorem cviewA_cviewB {c c' : Client} (h : cviewA c = cviewA c') :
    cviewB c = cviewB c' := by
  have h1 := cviewA_isfullscreen h
  have h2 := cviewA_isfloating h
  have h3 := cviewA_win h
  have h4 := cviewA_swallowing h
  simp [cviewB, h1, h2, h3, h4]

/-- Generic preservation of an observation through a left fold. -/
theorem foldl_preserve {α β : Type} (g : World → β) (step : World → α → World)
    (h : ∀ w a, g (step w a) = g w) :
    ∀ (l : List α) (w : World), g (List.foldl step w l) = g w := by
  intro l
  induction l with
  | nil => intro w; rfl
  | cons a rest ih => intro w; rw [List.foldl_cons, ih, h]

/-! ### Preservation through the geometry pipeline -/

theorem resizeclient_cviewA (w : World) (i : Nat) (x y a b : Int) (j : Nat) :
    cviewA ((resizeclient w i x y a b).cmap j) = cviewA (w.cmap j) := by
  unfold resizeclient
  dsimp only
  split
  · by_cases hj : j = i <;> simp [World.updc, hj, cviewA]
  · split
    · by_cases hj : j = i <;> simp [World.updc, hj, cviewA]
    · by_cases hj : j = i <;> simp [World.updc, hj, cviewA]

theorem resizeclient_mmap (w : World) (i : Nat) (x y a b : Int) :
    (resizeclient w i x y a b).mmap = w.mmap := by
  unfold resizeclient
  dsimp only
  split
  · rfl
  · split <;> rfl

theorem resizeclient_skel (w : World) (i : Nat) (x y a b : Int) :
    skel (resizeclient w i x y a b) = skel w := by
  unfold resizeclient
  dsimp only
  split
  · rfl
  · split <;> rfl

theorem resizeclient_conf_mono (w : World) (i : Nat) (x y a b : Int)
    (e : Conf) (he : e ∈ w.conf) : e ∈ (resizeclient w i x y a b).conf := by
  unfold resizeclient
  dsimp only
  split
  · exact he
  · split
    · exact List.mem_cons_of_mem _ he
    · exact List.mem_cons_of_mem _ he

theorem resize_cviewA (env : Env) (w : World) (i : Nat) (x y a b : Int)
    (ia : Bool) (j : Nat) :
    cviewA ((resize env w i x y a b ia).cmap j) = cviewA (w.cmap j) := by
  unfold resize
  dsimp only
  split
  · exact resizeclient_cviewA ..
  · rfl

theorem resize_mmap (env : Env) (w : World) (i : Nat) (x y a b : Int) (ia : Bool) :
    (resize env w i x y a b ia).mmap = w.mmap := by
  unfold resize
  dsimp only
  split
  · exact resizeclient_mmap ..
  · rfl

theorem resize_skel (env : Env) (w : World) (i : Nat) (x y a b : Int) (ia : Bool) :
    skel (resize env w i x y a b ia) = skel w := by
  unfold resize
  dsimp only
  split
  · exact resizeclient_skel ..
  · rfl

theorem resize_conf_mono (env : Env) (w : World) (i : Nat) (x y a b : Int)
    (ia : Bool) (e : Conf) (he : e ∈ w.conf) :
    e ∈ (resize env w i x y a b ia).conf := by
  unfold resize
  dsimp only
  split
  · exact resizeclient_conf_mono _ _ _ _ _ _ _ he
  · exact he

theorem showhide_cviewA (env : Env) (l : List Nat) :
    ∀ (w : World) (j : Nat), cviewA ((showhide env w l).cmap j) = cviewA (w.cmap j) := by
  induction l with
  | nil => intro w j; rfl
  | cons i rest ih =>
    intro w j
    unfold showhide
    dsimp only
    split
    · rw [ih]
      split <;> split <;> (try rw [resize_cviewA]) <;>
        (by_cases hj : j = i <;> simp [World.updc, hj, cviewA])
    · exact ih w j

theorem showhide_mmap (env : Env) (l : List Nat) :
    ∀ (w : World), (showhide env w l).mmap = w.mmap := by
  induction l with
  | nil => intro w; rfl
  | cons i rest ih =>
    intro w
    unfold showhide
    dsimp only
    split
    · rw [ih]
      split <;> split <;> (try rw [resize_mmap]) <;> rfl
    · exact ih w

theorem showhide_skel (env : Env) (l : List Nat) :
    ∀ (w : World), skel (showhide env w l) = skel w := by
  induction l with
  | nil => intro w; rfl
  | cons i rest ih =>
    intro w
    unfold showhide
    dsimp only
    split
    · rw [ih]
      split <;> split <;> (try rw [resize_skel]) <;> rfl
    · exact ih w

theorem monocleResize_cviewA (env : Env) (mid : Nat) (l : List Nat) :
    ∀ (w : World) (j : Nat),
      cviewA ((monocleResize env mid w l).cmap j) = cviewA (w.cmap j) := by
  induction l with
  | nil => intro w j; rfl
  | cons i rest ih =>
    intro w j
    unfold monocleResize
    dsimp only
    split
    · exact ih w j
    · rw [ih, resize_cviewA]

theorem monocleResize_mmap (env : Env) (mid : Nat) (l : List Nat) :
    ∀ (w : World), (monocleResize env mid w l).mmap = w.mmap := by
  induction l with
  | nil => intro w; rfl
  | cons i rest ih =>
    intro w
    unfold monocleResize
    dsimp only
    split
    · exact ih w
    · rw [ih, resize_mmap]

theorem monocleResize_skel (env : Env) (mid : Nat) (l : List Nat) :
    ∀ (w : World), skel (monocleResize env mid w l) = skel w := by
  induction l with
  | nil => intro w; rfl
  | cons i rest ih =>
    intro w
    unfold monocleResize
    dsimp only
    split
    · exact ih w
    · rw [ih, resize_skel]

theorem monocle_cviewA (env : Env) (w : World) (mid : Nat) (j : Nat) :
    cviewA ((monocle env w mid).cmap j) = cviewA (w.cmap j) := by
  unfold monocle
  dsimp only
  rw [monocleResize_cviewA]
  split <;> rfl

theorem monocle_mview (env : Env) (w : World) (mid : Nat) (m : Nat) :
    mview ((monocle env w mid).mmap m) = mview (w.mmap m) := by
  unfold monocle
  dsimp only
  rw [monocleResize_mmap]
  split
  · by_cases hm : m = mid <;> simp [World.updm, hm, mview]
  · rfl

theorem monocle_skel (env : Env) (w : World) (mid : Nat) :
    skel (monocle env w mid) = skel w := by
  unfold monocle
  dsimp only
  rw [monocleResize_skel]
  split <;> rfl

theorem tileResize_cviewA (env : Env) (mid : Nat) (iv : Int)
    (l : List Nat) : ∀ (w : World) (x0 y0 cw th : Int) (cnt : Nat) (j : Nat),
      cviewA ((tileResize env mid x0 y0 cw th iv cnt w l).cmap j) = cviewA (w.cmap j) := by
  induction l with
  | nil => intro w x0 y0 cw th cnt j; rfl
  | cons i rest ih =>
    intro w x0 y0 cw th cnt j
    unfold tileResize
    dsimp only
    split
    · rfl
    · rw [ih, resize_cviewA]

theorem tileResize_mmap (env : Env) (mid : Nat) (iv : Int)
    (l : List Nat) : ∀ (w : World) (x0 y0 cw th : Int) (cnt : Nat),
      (tileResize env mid x0 y0 cw th iv cnt w l).mmap = w.mmap := by
  induction l with
  | nil => intro w x0 y0 cw th cnt; rfl
  | cons i rest ih =>
    intro w x0 y0 cw th cnt
    unfold tileResize
    dsimp only
    split
    · rfl
    · rw [ih, resize_mmap]

theorem tileResize_skel (env : Env) (mid : Nat) (iv : Int)
    (l : List Nat) : ∀ (w : World) (x0 y0 cw th : Int) (cnt : Nat),
      skel (tileResize env mid x0 y0 cw th iv cnt w l) = skel w := by
  induction l with
  | nil => intro w x0 y0 cw th cnt; rfl
  | cons i rest ih =>
    intro w x0 y0 cw th cnt
    unfold tileResize
    dsimp only
    split
    · rfl
    · rw [ih, resize_skel]

theorem tile_cviewA (env : Env) (w : World) (mid : Nat) (j : Nat) :
    cviewA ((tile env w mid).cmap j) = cviewA (w.cmap j) := by
  unfold tile
  dsimp only
  split
  · rfl
  · split
    · rw [tileResize_cviewA]
    · rw [tileResize_cviewA, tileResize_cviewA]

theorem tile_mmap (env : Env) (w : World) (mid : Nat) :
    (tile env w mid).mmap = w.mmap := by
  unfold tile
  dsimp only
  split
  · rfl
  · split
    · rw [tileResize_mmap]
    · rw [tileResize_mmap, tileResize_mmap]

theorem tile_skel (env : Env) (w : World) (mid : Nat) :
    skel (tile env w mid) = skel w := by
  unfold tile
  dsimp only
  split
  · rfl
  · split
    · rw [tileResize_skel]
    · rw [tileResize_skel, tileResize_skel]

theorem arrangemon_cviewA (env : Env) (w : World) (mid : Nat) (j : Nat) :
    cviewA ((arrangemon env w mid).cmap j) = cviewA (w.cmap j) := by
  unfold arrangemon
  dsimp only
  split
  · rfl
  · rw [monocle_cviewA]; rfl
  · rw [tile_cviewA]; rfl

theorem arrangemon_mview (env : Env) (w : World) (mid : Nat) (m : Nat) :
    mview ((arrangemon env w mid).mmap m) = mview (w.mmap m) := by
  have hup : ∀ m, mview ((w.updm mid (fun m => { m with ltsymbol := m.curlt.symbol })).mmap m)
      = mview (w.mmap m) := by
    intro m
    by_cases hm : m = mid <;> simp [World.updm, hm, mview]
  unfold arrangemon
  dsimp only
  split
  · exact hup m
  · rw [monocle_mview]; exact hup m
  · rw [tile_mmap]; exact hup m

theorem arrangemon_skel (env : Env) (w : World) (mid : Nat) :
    skel (arrangemon env w mid) = skel w := by
  unfold arrangemon
  dsimp only
  split
  · rfl
  · rw [monocle_skel]; rfl
  · rw [tile_skel]; rfl

theorem arrange_cviewA (env : Env) (w : World) (mid : Nat) (j : Nat) :
    cviewA ((arrange env w mid).cmap j) = cviewA (w.cmap j) := by
  unfold arrange restack
  dsimp only
  rw [arrangemon_cviewA, showhide_cviewA]

theorem arrange_mview (env : Env) (w : World) (mid : Nat) (m : Nat) :
    mview ((arrange env w mid).mmap m) = mview (w.mmap m) := by
  unfold arrange restack
  dsimp only
  rw [arrangemon_mview, showhide_mmap]

theorem arrange_skel (env : Env) (w : World) (mid : Nat) :
    skel (arrange env w mid) = skel w := by
  unfold arrange restack
  dsimp only
  rw [arrangemon_skel, showhide_skel]

/-! ### Preservation through attachclients and focus -/

theorem attachclientsLoop_cviewB (mid : Nat) (mcur utags : Nat) (l : List Nat) :
    ∀ (w : World) (rmons : Bool) (j : Nat),
      cviewB ((attachclientsLoop mid mcur utags w l rmons).1.cmap j) = cviewB (w.cmap j) := by
  induction l with
  | nil => intro w rmons j; rfl
  | cons i rest ih =>
    intro w rmons j
    unfold attachclientsLoop
    dsimp only
    split
    · rw [ih]
      split <;> (by_cases hj : j = i <;> simp [World.updc, hj, cviewB])
    · exact ih w rmons j

theorem attachclientsLoop_mmap (mid : Nat) (mcur utags : Nat) (l : List Nat) :
    ∀ (w : World) (rmons : Bool),
      (attachclientsLoop mid mcur utags w l rmons).1.mmap = w.mmap := by
  induction l with
  | nil => intro w rmons; rfl
  | cons i rest ih =>
    intro w rmons
    unfold attachclientsLoop
    dsimp only
    split
    · rw [ih]; split <;> rfl
    · exact ih w rmons

theorem attachclientsLoop_skel (mid : Nat) (mcur utags : Nat) (l : List Nat) :
    ∀ (w : World) (rmons : Bool),
      skel (attachclientsLoop mid mcur utags w l rmons).1 = skel w := by
  induction l with
  | nil => intro w rmons; rfl
  | cons i rest ih =>
    intro w rmons
    unfold attachclientsLoop
    dsimp only
    split
    · rw [ih]; split <;> rfl
    · exact ih w rmons

theorem attachclients_cviewB (env : Env) (w : World) (mid : Nat) (j : Nat) :
    cviewB ((attachclients env w mid).cmap j) = cviewB (w.cmap j) := by
  unfold attachclients
  dsimp only
  split
  · rw [foldl_preserve (fun w => cviewB (w.cmap j))]
    · exact attachclientsLoop_cviewB ..
    · intro w a
      dsimp only
      split
      · exact cviewA_cviewB (arrange_cviewA ..)
      · rfl
  · exact attachclientsLoop_cviewB ..

theorem attachclients_mview (env : Env) (w : World) (mid : Nat) (m : Nat) :
    mview ((attachclients env w mid).mmap m) = mview (w.mmap m) := by
  unfold attachclients
  dsimp only
  split
  · rw [foldl_preserve (fun w => mview (w.mmap m))]
    · rw [attachclientsLoop_mmap]
    · intro w a
      dsimp only
      split
      · exact arrange_mview ..
      · rfl
  · rw [attachclientsLoop_mmap]

theorem attachclients_skel (env : Env) (w : World) (mid : Nat) :
    skel (attachclients env w mid) = skel w := by
  unfold attachclients
  dsimp only
  split
  · rw [foldl_preserve skel]
    · exact attachclientsLoop_skel ..
    · intro w a
      dsimp only
      split
      · exact arrange_skel ..
      · rfl
  · exact attachclientsLoop_skel ..

/-- The ownership fact `attachclients` establishes: a client whose tags meet
the target monitor's displayed tagset has been re-owned by that monitor. -/
def ownedBy (w : World) (mid mcur : Nat) (j : Nat) : Prop :=
  (w.cmap j).tags &&& mcur ≠ 0 → (w.cmap j).mon = mid

theorem attachclientsLoop_owned_pres (mid : Nat) (mcur utags : Nat) (l : List Nat) :
    ∀ (w : World) (rmons : Bool) (j : Nat), ownedBy w mid mcur j →
      ownedBy (attachclientsLoop mid mcur utags w l rmons).1 mid mcur j := by
  induction l with
  | nil => intro w rmons j h; exact h
  | cons i rest ih =>
    intro w rmons j h
    unfold attachclientsLoop
    dsimp only
    split
    · apply ih
      by_cases hj : j = i
      · subst hj
        intro _
        split <;> simp [World.updc, ownedBy]
      · unfold ownedBy at h ⊢
        split <;> simp [World.updc, hj] <;> exact h
    · exact ih w rmons j h

theorem attachclientsLoop_owned_mem (mid : Nat) (mcur utags : Nat) (l : List Nat) :
    ∀ (w : World) (rmons : Bool) (j : Nat), j ∈ l →
      ownedBy (attachclientsLoop mid mcur utags w l rmons).1 mid mcur j := by
  induction l with
  | nil => intro w rmons j h; exact absurd h (List.not_mem_nil j)
  | cons i rest ih =>
    intro w rmons j hmem
    rcases List.mem_cons.mp hmem with hj | hj
    · subst hj
      unfold attachclientsLoop
      dsimp only
      split
      · apply attachclientsLoop_owned_pres
        intro _
        split <;> simp [World.updc, ownedBy]
      · apply attachclientsLoop_owned_pres
        intro hc
        exact absurd hc (by assumption)
    · unfold attachclientsLoop
      dsimp only
      split
      · exact ih _ _ j hj
      · exact ih _ _ j hj

theorem attachclients_owned (env : Env) (w : World) (mid : Nat) (j : Nat)
    (hmem : j ∈ w.clients) :
    ownedBy (attachclients env w mid) mid ((w.mmap mid).curtags) j := by
  unfold attachclients
  dsimp only
  split
  · have hbase := attachclientsLoop_owned_mem mid ((w.mmap mid).curtags)
      (utagsExcept w mid) w.clients w false j hmem
    have hfold := foldl_preserve (fun w' => cviewA (w'.cmap j))
      (fun w tm => if tm ≠ mid then arrange env w tm else w)
      (by intro w a; dsimp only; split; exacts [arrange_cviewA .., rfl])
      (attachclientsLoop mid ((w.mmap mid).curtags) (utagsExcept w mid) w w.clients false).1.mons
      (attachclientsLoop mid ((w.mmap mid).curtags) (utagsExcept w mid) w w.clients false).1
    unfold ownedBy at hbase ⊢
    rw [cviewA_tags hfold, cviewA_mon hfold]
    exact hbase
  · exact attachclientsLoop_owned_mem mid ((w.mmap mid).curtags)
      (utagsExcept w mid) w.clients w false j hmem

theorem firstVisible_mem (w : World) (m : Monitor) (l : List Nat) (i : Nat) :
    firstVisible w m l = some i → i ∈ l := by
  induction l with
  | nil => intro h; cases h
  | cons a rest ih =>
    intro h
    unfold firstVisible at h
    by_cases hv : ISVISIBLE (w.cmap a) m
    · rw [if_pos hv] at h
      cases h
      exact List.mem_cons_self ..
    · rw [if_neg hv] at h
      exact List.mem_cons_of_mem _ (ih h)

theorem detachstack_cmap (w : World) (i : Nat) :
    (detachstack w i).cmap = w.cmap := by
  unfold detachstack
  dsimp only
  split <;> rfl

theorem detachstack_mview (w : World) (i : Nat) (m : Nat) :
    mview ((detachstack w i).mmap m) = mview (w.mmap m) := by
  unfold detachstack
  dsimp only
  split
  · by_cases hm : m = (w.cmap i).mon <;> simp [World.updm, hm, mview]
  · rfl

theorem detachstack_clients (w : World) (i : Nat) :
    (detachstack w i).clients = w.clients := by
  unfold detachstack
  dsimp only
  split <;> rfl

theorem detachstack_selmon (w : World) (i : Nat) :
    (detachstack w i).selmon = w.selmon := by
  unfold detachstack
  dsimp only
  split <;> rfl

theorem attachstack_cmap (w : World) (i : Nat) : (attachstack w i).cmap = w.cmap := rfl

theorem attachstack_mmap (w : World) (i : Nat) : (attachstack w i).mmap = w.mmap := rfl

theorem seturgent_cviewA (w : World) (k : Nat) (b : Bool) (j : Nat) :
    cviewA ((seturgent w k b).cmap j) = cviewA (w.cmap j) := by
  unfold seturgent
  by_cases hj : j = k <;> simp [World.updc, hj, cviewA]

theorem seturgent_mmap (w : World) (k : Nat) (b : Bool) :
    (seturgent w k b).mmap = w.mmap := rfl

theorem focus_cviewA (w : World) (copt : Option Nat) (j : Nat) :
    cviewA ((focus w copt).cmap j) = cviewA (w.cmap j) := by
  have hurg : ∀ (w2 : World) (i : Nat),
      cviewA ((if (w2.cmap i).isurgent = true then seturgent w2 i false else w2).cmap j)
        = cviewA (w2.cmap j) := by
    intro w2 i
    split
    · exact seturgent_cviewA ..
    · rfl
  cases copt with
  | none =>
    unfold focus
    dsimp only
    split
    · rw [updm_cmap, attachstack_cmap, detachstack_cmap, hurg]
      repeat' split
      all_goals rfl
    · rw [updm_cmap]
  | some i0 =>
    unfold focus
    dsimp only
    split
    · rw [updm_cmap, attachstack_cmap, detachstack_cmap, hurg]
      repeat' split
      all_goals rfl
    · rw [updm_cmap]
      repeat' split
      all_goals rfl

theorem focus_mview (w : World) (copt : Option Nat) (m : Nat) :
    mview ((focus w copt).mmap m) = mview (w.mmap m) := by
  have hfin : ∀ (wx : World) (k : Nat) (s : Option Nat),
      mview ((wx.updm k (fun mm => { mm with sel := s })).mmap m) = mview (wx.mmap m) := by
    intro wx k s
    by_cases hm : m = k <;> simp [World.updm, hm, mview]
  have hurg : ∀ (w2 : World) (i : Nat),
      mview ((if (w2.cmap i).isurgent = true then seturgent w2 i false else w2).mmap m)
        = mview (w2.mmap m) := by
    intro w2 i
    split
    · rw [seturgent_mmap]
    · rfl
  cases copt with
  | none =>
    unfold focus
    dsimp only
    split
    · rw [hfin, attachstack_mmap, detachstack_mview, hurg]
      repeat' split
      all_goals rfl
    · rw [hfin]
  | some i0 =>
    unfold focus
    dsimp only
    split
    · rw [hfin, attachstack_mmap, detachstack_mview, hurg]
      repeat' split
      all_goals rfl
    · rw [hfin]
      repeat' split
      all_goals rfl

theorem focus_clients (w : World) (copt : Option Nat) :
    (focus w copt).clients = w.clients := by
  cases copt with
  | none =>
    unfold focus
    dsimp only
    split
    · show (detachstack _ _).clients = _
      rw [detachstack_clients]
      repeat' split
      all_goals rfl
    · rfl
  | some i0 =>
    unfold focus
    dsimp only
    split
    · show (detachstack _ _).clients = _
      rw [detachstack_clients]
      repeat' split
      all_goals rfl
    · repeat' split
      all_goals rfl

theorem focus_mons (w : World) (copt : Option Nat) :
    (focus w copt).mons = w.mons := by
  have hds : ∀ (wx : World) (i : Nat), (detachstack wx i).mons = wx.mons := by
    intro wx i
    unfold detachstack
    dsimp only
    split <;> rfl
  cases copt with
  | none =>
    unfold focus
    dsimp only
    split
    · show (detachstack _ _).mons = _
      rw [hds]
      repeat' split
      all_goals rfl
    · rfl
  | some i0 =>
    unfold focus
    dsimp only
    split
    · show (detachstack _ _).mons = _
      rw [hds]
      repeat' split
      all_goals rfl
    · repeat' split
      all_goals rfl


/-! ### The fullscreen loop of view -/

theorem viewFsLoop_cmap (ts : Nat) (l : List Nat) :
    ∀ (w : World) (fs : Option Nat), l.Nodup → ∀ j,
      (viewFsLoop ts w l fs).1.cmap j
        = if j ∈ l ∧ (w.cmap j).isfullscreen = true ∧ (w.cmap j).tags &&& ts ≠ 0
          then { w.cmap j with isfullscreen := false } else w.cmap j := by
  induction l with
  | nil =>
    intro w fs _ j
    simp [viewFsLoop]
  | cons i rest ih =>
    intro w fs hnd j
    have hndr := (List.nodup_cons.mp hnd).2
    have hnmem := (List.nodup_cons.mp hnd).1
    unfold viewFsLoop
    dsimp only
    split
    · rename_i hskip
      rw [ih _ _ hndr]
      by_cases hj : j = i
      · subst hj
        have hA : ¬ (j ∈ rest ∧ (w.cmap j).isfullscreen = true ∧ (w.cmap j).tags &&& ts ≠ 0) :=
          fun hcl => hskip ⟨hcl.2.1, hcl.2.2⟩
        have hB : ¬ (j ∈ j :: rest ∧ (w.cmap j).isfullscreen = true ∧ (w.cmap j).tags &&& ts ≠ 0) :=
          fun hcl => hskip ⟨hcl.2.1, hcl.2.2⟩
        rw [if_neg hA, if_neg hB]
      · refine if_congr ?_ rfl rfl
        constructor
        · rintro ⟨hj', hrest⟩
          exact ⟨List.mem_cons_of_mem _ hj', hrest⟩
        · rintro ⟨hj', hrest⟩
          rcases List.mem_cons.mp hj' with h | h
          · exact absurd h hj
          · exact ⟨h, hrest⟩
    · rename_i hmatch
      rw [ih _ _ hndr]
      by_cases hj : j = i
      · subst hj
        have hA : ¬ (j ∈ rest ∧
            (((w.updc j fun c => { c with isfullscreen := false })).cmap j).isfullscreen = true ∧
            (((w.updc j fun c => { c with isfullscreen := false })).cmap j).tags &&& ts ≠ 0) := by
          simp [World.updc]
        have hm := not_not.mp hmatch
        rw [if_neg hA, if_pos ⟨List.mem_cons_self .., hm.1, hm.2⟩]
        simp [World.updc]
      · have hcj : ((w.updc i fun c => { c with isfullscreen := false }).cmap j) = w.cmap j := by
          simp [World.updc, hj]
        rw [hcj]
        refine if_congr ?_ rfl rfl
        constructor
        · rintro ⟨hj', hrest⟩
          exact ⟨List.mem_cons_of_mem _ hj', hrest⟩
        · rintro ⟨hj', hrest⟩
          rcases List.mem_cons.mp hj' with h | h
          · exact absurd h hj
          · exact ⟨h, hrest⟩

theorem viewFsLoop_fs (ts : Nat) (l : List Nat) :
    ∀ (w : World) (fs : Option Nat), l.Nodup →
      (viewFsLoop ts w l fs).2
        = toggleFold fs (l.filter (fun i =>
            decide ((w.cmap i).isfullscreen = true ∧ (w.cmap i).tags &&& ts ≠ 0))) := by
  induction l with
  | nil => intro w fs _; rfl
  | cons i rest ih =>
    intro w fs hnd
    have hndr := (List.nodup_cons.mp hnd).2
    have hnmem := (List.nodup_cons.mp hnd).1
    unfold viewFsLoop
    dsimp only
    split
    · rename_i hskip
      rw [ih _ _ hndr, List.filter_cons]
      rw [if_neg (by simpa using hskip)]
    · rename_i hmatch
      rw [ih _ _ hndr, List.filter_cons]
      rw [if_pos (by simpa using hmatch)]
      have hfc : rest.filter (fun k =>
            decide (((w.updc i fun c => { c with isfullscreen := false }).cmap k).isfullscreen = true
              ∧ ((w.updc i fun c => { c with isfullscreen := false }).cmap k).tags &&& ts ≠ 0))
          = rest.filter (fun k =>
            decide ((w.cmap k).isfullscreen = true ∧ (w.cmap k).tags &&& ts ≠ 0)) := by
        apply List.filter_congr
        intro k hk
        have hne : k ≠ i := fun h => hnmem (h ▸ hk)
        simp [World.updc, hne]
      rw [hfc]
      rfl

theorem viewFsLoop_mmap (ts : Nat) (l : List Nat) :
    ∀ (w : World) (fs : Option Nat), (viewFsLoop ts w l fs).1.mmap = w.mmap := by
  induction l with
  | nil => intro w fs; rfl
  | cons i rest ih =>
    intro w fs
    unfold viewFsLoop
    dsimp only
    split
    · exact ih w fs
    · rw [ih]; rfl

theorem viewFsLoop_skel (ts : Nat) (l : List Nat) :
    ∀ (w : World) (fs : Option Nat), skel (viewFsLoop ts w l fs).1 = skel w := by
  induction l with
  | nil => intro w fs; rfl
  | cons i rest ih =>
    intro w fs
    unfold viewFsLoop
    dsimp only
    split
    · exact ih w fs
    · rw [ih]; rfl

theorem toggleFold_spec (l : List Nat) :
    ∀ (fs : Option Nat),
      toggleFold fs l
        = if (l.length + (if fs.isSome then 1 else 0)) % 2 = 1
          then (if l = [] then fs else l.getLast?) else none := by
  induction l with
  | nil =>
    intro fs
    cases fs <;> simp [toggleFold]
  | cons i rest ih =>
    intro fs
    have hlast : (i :: rest).getLast? = if rest = [] then some i else rest.getLast? := by
      cases rest with
      | nil => simp
      | cons b t => simp [List.getLast?_cons_cons]
    cases fs with
    | none =>
      show toggleFold (some i) rest = _
      rw [ih]
      norm_num [hlast]
      simp
    | some a =>
      show toggleFold none rest = _
      rw [ih]
      norm_num [hlast]
      by_cases hc : rest.length % 2 = 1
      · have hc2 : (rest.length + 1 + 1) % 2 = 1 := by omega
        have hr : rest ≠ [] := by
          intro he
          subst he
          simp at hc
        rw [if_pos hc, if_pos hc2, if_neg hr, if_neg hr]
        simp
      · have hc2 : ¬ (rest.length + 1 + 1) % 2 = 1 := by omega
        rw [if_neg hc, if_neg hc2]

theorem toggleFold_none_eq_some (l : List Nat) (j : Nat) :
    toggleFold none l = some j ↔ l.length % 2 = 1 ∧ l.getLast? = some j := by
  rw [toggleFold_spec]
  norm_num
  intro h1 _ he
  subst he
  simp at h1

theorem nexttiled_congr (w w' : World) (m : Monitor)
    (h : ∀ j, (w'.cmap j).isfloating = (w.cmap j).isfloating
      ∧ (w'.cmap j).tags = (w.cmap j).tags) :
    ∀ (l : List Nat), nexttiled w' m l = nexttiled w m l := by
  intro l
  induction l with
  | nil => rfl
  | cons j rest ih =>
    unfold nexttiled
    have hc : ((w'.cmap j).isfloating = true ∨ ¬ ISVISIBLE (w'.cmap j) m)
        ↔ ((w.cmap j).isfloating = true ∨ ¬ ISVISIBLE (w.cmap j) m) := by
      unfold ISVISIBLE
      rw [(h j).1, (h j).2]
    exact if_congr hc ih rfl

theorem nexttiled_geomupd (w : World) (i : Nat) (x y wd ht : Int) (m : Monitor) :
    ∀ (l : List Nat),
      nexttiled (w.updc i (fun c =>
        { c with oldx := c.x, x := x, oldy := c.y, y := y,
                 oldw := c.w, w := wd, oldh := c.h, h := ht })) m l
        = nexttiled w m l :=
  nexttiled_congr w _ m (fun j => by by_cases hj : j = i <;> simp [World.updc, hj])

/-- C9 (amended with the `beingmoved` proviso): in `resizeclient`, when the
client is not being moved by the mouse, a layout is active and the client is
neither floating nor fullscreen, and it is the only visible tiled client of
its monitor or the layout is monocle, then the XConfigureWindow sent carries
border width 0 and the stored width/height are enlarged by twice the border
width; in every other non-`beingmoved` case the configure carries the
client's border width `bw` and the stored size is the requested one. -/
theorem C9_resizeclient_border_elision (w : World) (i : Nat) (x y wd ht : Int)
    (hbm : (w.cmap i).beingmoved = false) :
    (((nexttiled w (w.mmap (w.cmap i).mon) w.clients = some i ∧
        nexttiled w (w.mmap (w.cmap i).mon) (sufAfter i w.clients) = none) ∨
       (w.mmap (w.cmap i).mon).curlt = Layout.monocle) ∧
      (w.cmap i).isfullscreen = false ∧ (w.cmap i).isfloating = false ∧
      (w.mmap (w.cmap i).mon).curlt.hasArrange = true →
      ((resizeclient w i x y wd ht).cmap i).w = wd + (w.cmap i).bw * 2 ∧
      ((resizeclient w i x y wd ht).cmap i).h = ht + (w.cmap i).bw * 2 ∧
      (resizeclient w i x y wd ht).conf
        = ⟨(w.cmap i).win, x, y, wd + (w.cmap i).bw * 2, ht + (w.cmap i).bw * 2, 0⟩ :: w.conf) ∧
    (¬ (((nexttiled w (w.mmap (w.cmap i).mon) w.clients = some i ∧
          nexttiled w (w.mmap (w.cmap i).mon) (sufAfter i w.clients) = none) ∨
         (w.mmap (w.cmap i).mon).curlt = Layout.monocle) ∧
        (w.cmap i).isfullscreen = false ∧ (w.cmap i).isfloating = false ∧
        (w.mmap (w.cmap i).mon).curlt.hasArrange = true) →
      ((resizeclient w i x y wd ht).cmap i).w = wd ∧
      ((resizeclient w i x y wd ht).cmap i).h = ht ∧
      (resizeclient w i x y wd ht).conf
        = ⟨(w.cmap i).win, x, y, wd, ht, (w.cmap i).bw⟩ :: w.conf) := by
  constructor
  · intro hcond
    unfold resizeclient
    dsimp only
    split
    · rename_i hmv
      simp only [World.updc, if_pos rfl] at hmv
      rw [hbm] at hmv
      cases hmv
    · split
      · refine ⟨?_, ?_, ?_⟩ <;> simp [World.updc]
      · rename_i hnc
        rw [nexttiled_geomupd, nexttiled_geomupd] at hnc
        simp only [World.updc, updc_mmap, if_pos rfl] at hnc
        exact absurd (by
          refine ⟨?_, ?_, ?_, ?_⟩
          · exact hcond.1
          · simp [hcond.2.1]
          · simp [hcond.2.2.1]
          · exact hcond.2.2.2) hnc
  · intro hcond
    unfold resizeclient
    dsimp only
    split
    · rename_i hmv
      simp only [World.updc, if_pos rfl] at hmv
      rw [hbm] at hmv
      cases hmv
    · split
      · rename_i hc
        rw [nexttiled_geomupd, nexttiled_geomupd] at hc
        simp only [World.updc, updc_mmap, if_pos rfl] at hc
        exact absurd (by
          refine ⟨hc.1, ?_, ?_, hc.2.2.2⟩
          · simpa using hc.2.1
          · simpa using hc.2.2.1) hcond
      · refine ⟨?_, ?_, ?_⟩ <;> simp [World.updc]


theorem C9_witness :
    ((resizeclient worldOneTiled 1 0 0 500 400).cmap 1).w
        = 500 + (worldOneTiled.cmap 1).bw * 2 ∧
    ((resizeclient worldOneTiled 1 0 0 500 400).cmap 1).h
        = 400 + (worldOneTiled.cmap 1).bw * 2 ∧
    (resizeclient worldOneTiled 1 0 0 500 400).conf
      = ⟨(worldOneTiled.cmap 1).win, 0, 0, 500 + (worldOneTiled.cmap 1).bw * 2,
          400 + (worldOneTiled.cmap 1).bw * 2, 0⟩ :: worldOneTiled.conf :=
  (C9_resizeclient_border_elision worldOneTiled 1 0 0 500 400 (by decide)).1 (by decide)

/-- C9 counterexample: a `beingmoved` client meets every condition of the
claim, yet the stored width stays at the requested value (no 2·bw
enlargement, bw = 2) and no XConfigureWindow is issued at all. -/
theorem C9_counterexample :
    (worldBeingMoved.mmap ((worldBeingMoved.cmap 1).mon)).curlt = Layout.monocle ∧
    (worldBeingMoved.cmap 1).isfullscreen = false ∧
    (worldBeingMoved.cmap 1).isfloating = false ∧
    (worldBeingMoved.mmap ((worldBeingMoved.cmap 1).mon)).curlt.hasArrange = true ∧
    (worldBeingMoved.cmap 1).bw = 2 ∧
    ((resizeclient worldBeingMoved 1 0 0 500 400).cmap 1).w = 500 ∧
    (resizeclient worldBeingMoved 1 0 0 500 400).conf = [] := by
  decide

theorem arrange_mfact (env : Env) (w : World) (mid : Nat) (m : Nat) :
    ((arrange env w mid).mmap m).mfact = (w.mmap m).mfact :=
  mview_mfact (arrange_mview env w mid m)

/-- C8: setmfact computes the new factor (relative for arg < 1.0, absolute
minus one otherwise); a result outside [0.05, 0.95] makes the call a no-op,
and the selected monitor's mfact never leaves [0.05, 0.95]. -/
theorem C8_setmfact_clamp (env : Env) (w : World) (argf : ℚ) :
    ((if argf < 1 then argf + (w.mmap w.selmon).mfact else argf - 1) < 1/20 ∨
      (if argf < 1 then argf + (w.mmap w.selmon).mfact else argf - 1) > 19/20 →
      setmfact env w argf = w) ∧
    (1/20 ≤ (w.mmap w.selmon).mfact ∧ (w.mmap w.selmon).mfact ≤ 19/20 →
      1/20 ≤ ((setmfact env w argf).mmap w.selmon).mfact ∧
        ((setmfact env w argf).mmap w.selmon).mfact ≤ 19/20) := by
  constructor
  · intro hf
    unfold setmfact
    dsimp only
    set f := if argf < 1 then argf + (w.mmap w.selmon).mfact else argf - 1
    split <;> rfl
  · intro hr
    unfold setmfact
    dsimp only
    set f := if argf < 1 then argf + (w.mmap w.selmon).mfact else argf - 1
    split
    · exact hr
    · split
      · exact hr
      · rename_i hno
        push_neg at hno
        rw [arrange_mfact]
        simp only [World.updm, if_pos rfl]
        exact ⟨hno.1, hno.2⟩

theorem C8_witness :
    setmfact sampleEnv worldOneTiled (9/10) = worldOneTiled ∧
    (1/20 ≤ ((setmfact sampleEnv worldOneTiled (1/10)).mmap worldOneTiled.selmon).mfact ∧
      ((setmfact sampleEnv worldOneTiled (1/10)).mmap worldOneTiled.selmon).mfact ≤ 19/20) :=
  ⟨(C8_setmfact_clamp sampleEnv worldOneTiled (9/10)).1
      (by norm_num [worldOneTiled, sampleMon]),
   (C8_setmfact_clamp sampleEnv worldOneTiled (1/10)).2
      (by norm_num [worldOneTiled, sampleMon])⟩


/-- C6: setfloatpos is a no-op under an active layout with a non-floating
client, and for every string that does not scan as the 4- or 8-token form;
whenever it does act it sets the client's `ignoresizehints` flag. -/
theorem C6_setfloatpos_guards (env : Env) (w : World) (i : Nat) (s : String) :
    ((w.mmap w.selmon).curlt.hasArrange = true ∧ (w.cmap i).isfloating = false →
      setfloatpos env w i s = w) ∧
    ((scanFloatpos s).cnt ≠ 4 ∧ (scanFloatpos s).cnt ≠ 8 →
      setfloatpos env w i s = w) ∧
    (¬ ((w.mmap w.selmon).curlt.hasArrange = true ∧ ¬ (w.cmap i).isfloating = true) →
      ((setfloatpos env w i s).cmap i).ignoresizehints = true
        ∨ setfloatpos env w i s = w) ∧
    (¬ ((w.mmap w.selmon).curlt.hasArrange = true ∧ ¬ (w.cmap i).isfloating = true) →
      (scanFloatpos s).cnt = 4 ∨ (scanFloatpos s).cnt = 8 →
      ((setfloatpos env w i s).cmap i).ignoresizehints = true) := by
  have hmain : ∀ (hg : ¬ ((w.mmap w.selmon).curlt.hasArrange = true
      ∧ ¬ (w.cmap i).isfloating = true)),
      ((scanFloatpos s).cnt = 4 ∨ (scanFloatpos s).cnt = 8) →
      ((setfloatpos env w i s).cmap i).ignoresizehints = true := by
    intro hg hcnt
    unfold setfloatpos
    dsimp only
    rw [if_neg hg]
    split
    · rename_i heq
      rcases hcnt with h4 | h8
      · rw [if_pos h4] at heq
        repeat' split at heq
        all_goals simp at heq
      · have h4' : ¬ (scanFloatpos s).cnt = 4 := by omega
        rw [if_neg h4', if_pos h8] at heq
        repeat' split at heq
        all_goals simp at heq
    · simp [World.updc]
  refine ⟨?_, ?_, ?_, ?_⟩
  · intro h
    unfold setfloatpos
    dsimp only
    rw [if_pos ⟨h.1, by simp [h.2]⟩]
  · intro h
    unfold setfloatpos
    dsimp only
    split
    · rfl
    · split
      · rfl
      · rename_i heq
        rw [if_neg h.1, if_neg h.2] at heq
        cases heq
  · intro hg
    by_cases hcnt : (scanFloatpos s).cnt = 4 ∨ (scanFloatpos s).cnt = 8
    · exact Or.inl (hmain hg hcnt)
    · push_neg at hcnt
      refine Or.inr ?_
      unfold setfloatpos
      dsimp only
      split
      · rfl
      · split
        · rfl
        · rename_i heq
          rw [if_neg hcnt.1, if_neg hcnt.2] at heq
          cases heq
  · exact hmain

theorem C6_witness :
    setfloatpos sampleEnv worldOneTiled 1 "10A 10A" = worldOneTiled ∧
    setfloatpos sampleEnv worldFloatLayout 1 "garbage" = worldFloatLayout ∧
    ((setfloatpos sampleEnv worldFloatLayout 1 "10A 10A").cmap 1).ignoresizehints = true :=
  ⟨(C6_setfloatpos_guards sampleEnv worldOneTiled 1 "10A 10A").1 (by decide),
   (C6_setfloatpos_guards sampleEnv worldFloatLayout 1 "garbage").2.1 (by decide),
   (C6_setfloatpos_guards sampleEnv worldFloatLayout 1 "10A 10A").2.2.2 (by decide) (by decide)⟩


theorem updateclientlist_clients (w : World) : (updateclientlist w).clients = w.clients := rfl

theorem updateclientlist_stack (w : World) : (updateclientlist w).stack = w.stack := rfl

theorem updateclientlist_cmap (w : World) : (updateclientlist w).cmap = w.cmap := rfl

theorem arrange_clients (env : Env) (w : World) (mid : Nat) :
    (arrange env w mid).clients = w.clients :=
  skel_clients (arrange_skel env w mid)

theorem arrange_stack (env : Env) (w : World) (mid : Nat) :
    (arrange env w mid).stack = w.stack :=
  skel_stack (arrange_skel env w mid)

theorem detachstack_stack (w : World) (i : Nat) :
    (detachstack w i).stack = w.stack.erase i := by
  unfold detachstack
  dsimp only
  split <;> rfl

/-- C7: swallow(p, c) is a no-op when the child is flagged `noswallow` or
`isterminal`; otherwise the child is unlinked from the client and stack
lists, its window handle is exchanged with the parent's, and it is recorded
in the parent's `swallowing` field; and the second guard
(`noswallow && !swallowfloating && c->isfloating`) never decides the
outcome: deleting it leaves the function's behaviour unchanged. -/
theorem C7_swallow_guard_and_transplant (env : Env) (w : World) (p c : Nat) :
    ((w.cmap c).noswallow = true ∨ (w.cmap c).isterminal = true →
      swallow env w p c = w) ∧
    (¬ ((w.cmap c).noswallow = true ∨ (w.cmap c).isterminal = true) → p ≠ c →
      (swallow env w p c).clients = w.clients.erase c ∧
      (swallow env w p c).stack = w.stack.erase c ∧
      ((swallow env w p c).cmap p).swallowing = some c ∧
      ((swallow env w p c).cmap p).win = (w.cmap c).win ∧
      ((swallow env w p c).cmap c).win = (w.cmap p).win) ∧
    swallow env w p c = swallowNoDeadGuard env w p c := by
  refine ⟨?_, ?_, ?_⟩
  · intro h
    unfold swallow
    rw [if_pos h]
  · intro h hpc
    unfold swallow
    rw [if_neg h, if_neg (fun hc => h (Or.inl hc.1))]
    dsimp only
    refine ⟨?_, ?_, ?_, ?_, ?_⟩
    · rw [updateclientlist_clients, arrange_clients]
      show (detachstack (detach w c) c).clients = w.clients.erase c
      rw [detachstack_clients]
      rfl
    · rw [updateclientlist_stack, arrange_stack]
      show (detachstack (detach w c) c).stack = w.stack.erase c
      rw [detachstack_stack]
      rfl
    · rw [updateclientlist_cmap, cviewA_swallowing (arrange_cviewA _ _ _ _)]
      simp [updatetitle, World.updc, hpc, Ne.symm hpc, detachstack_cmap]
    · rw [updateclientlist_cmap, cviewA_win (arrange_cviewA _ _ _ _)]
      simp only [updatetitle, World.updc]
      simp [hpc, Ne.symm hpc]
      rw [show ∀ j, (detachstack (detach w c) c).cmap j = w.cmap j from
        fun j => congrFun (detachstack_cmap (detach w c) c) j]
    · rw [updateclientlist_cmap, cviewA_win (arrange_cviewA _ _ _ _)]
      simp only [updatetitle, World.updc]
      simp [hpc, Ne.symm hpc]
      rw [show ∀ j, (detachstack (detach w c) c).cmap j = w.cmap j from
        fun j => congrFun (detachstack_cmap (detach w c) c) j]
  · unfold swallow swallowNoDeadGuard
    by_cases h : (w.cmap c).noswallow = true ∨ (w.cmap c).isterminal = true
    · rw [if_pos h, if_pos h]
    · rw [if_neg h, if_neg h, if_neg (fun hc => h (Or.inl hc.1))]

theorem C7_witness :
    swallow sampleEnv worldSwallow 2 1 = worldSwallow ∧
    ((swallow sampleEnv worldSwallow 1 2).clients = worldSwallow.clients.erase 2 ∧
      (swallow sampleEnv worldSwallow 1 2).stack = worldSwallow.stack.erase 2 ∧
      ((swallow sampleEnv worldSwallow 1 2).cmap 1).swallowing = some 2 ∧
      ((swallow sampleEnv worldSwallow 1 2).cmap 1).win = (worldSwallow.cmap 2).win ∧
      ((swallow sampleEnv worldSwallow 1 2).cmap 2).win = (worldSwallow.cmap 1).win) :=
  ⟨(C7_swallow_guard_and_transplant sampleEnv worldSwallow 2 1).1 (by decide),
   (C7_swallow_guard_and_transplant sampleEnv worldSwallow 1 2).2.1 (by decide) (by decide)⟩


theorem count_flatten_const {α : Type} [DecidableEq α] (L : List α) (x : α) :
    ∀ (ms : List Nat), ((ms.map (fun _ => L)).flatten.count x) = ms.length * L.count x := by
  intro ms
  induction ms with
  | nil => simp
  | cons m rest ih =>
    simp only [List.map_cons, List.flatten_cons, List.count_append, List.length_cons, ih]
    ring

/-- C1 (amended): `updateclientlist` walks every monitor and, for each,
appends the whole shared client list, so each managed window ends up in
`_NET_CLIENT_LIST` once per monitor (and in the stacking list once per
monitor); the claim's "exactly once" only holds with a single monitor. -/
theorem C1_updateclientlist_shared_list (w : World) :
    (∀ mid, w.mons = [mid] →
      (updateclientlist w).netClientList = w.clients.map (fun i => (w.cmap i).win) ∧
      (updateclientlist w).netClientListStacking = w.stack.map (fun i => (w.cmap i).win)) ∧
    (∀ x, (updateclientlist w).netClientList.count x
        = w.mons.length * ((w.clients.map (fun i => (w.cmap i).win)).count x)) ∧
    (∀ x, (updateclientlist w).netClientListStacking.count x
        = w.mons.length * ((w.stack.map (fun i => (w.cmap i).win)).count x)) := by
  refine ⟨?_, ?_, ?_⟩
  · intro mid hm
    unfold updateclientlist
    rw [hm]
    simp
  · intro x
    unfold updateclientlist
    exact count_flatten_const _ x w.mons
  · intro x
    unfold updateclientlist
    exact count_flatten_const _ x w.mons

theorem C1_witness :
    ((updateclientlist worldOneTiled).netClientList
        = worldOneTiled.clients.map (fun i => (worldOneTiled.cmap i).win) ∧
      (updateclientlist worldOneTiled).netClientListStacking
        = worldOneTiled.stack.map (fun i => (worldOneTiled.cmap i).win)) ∧
    (updateclientlist worldTwoMons).netClientList.count 100
      = worldTwoMons.mons.length
          * ((worldTwoMons.clients.map (fun i => (worldTwoMons.cmap i).win)).count 100) :=
  ⟨(C1_updateclientlist_shared_list worldOneTiled).1 0 (by decide),
   (C1_updateclientlist_shared_list worldTwoMons).2.1 100⟩

/-- C1 counterexample: with two monitors and a single managed client
(window 100), `_NET_CLIENT_LIST` carries the window twice, refuting
"each managed client's window appearing exactly once ... for every number
of monitors". -/
theorem C1_counterexample :
    (updateclientlist worldTwoMons).netClientList = [100, 100] ∧
    worldTwoMons.clients.map (fun i => (worldTwoMons.cmap i).win) = [100] := by
  constructor <;> rfl


theorem clampPos_id (env : Env) (c : Client) (m : Monitor) (x y wd ht : Int)
    (h1 : ¬ (x ≥ m.wx + m.ww)) (h2 : ¬ (y ≥ m.wy + m.wh))
    (h3 : ¬ (x + wd + 2 * c.bw ≤ m.wx)) (h4 : ¬ (y + ht + 2 * c.bw ≤ m.wy)) :
    clampPos env c m x y wd ht false = (x, y) := by
  unfold clampPos
  rw [if_neg (by simp : ¬ (false = true))]
  dsimp only
  rw [if_neg h1, if_neg h2, if_neg h3, if_neg h4]

theorem applysizehints_monocle (env : Env) (w : World) (i : Nat) (mid : Nat)
    (hmon : (w.cmap i).mon = mid)
    (hlt : (w.mmap mid).curlt = Layout.monocle)
    (hnf : (w.cmap i).isfloating = false)
    (hww : 0 < (w.mmap mid).ww) (hwh : 0 < (w.mmap mid).wh)
    (h1w : 1 ≤ (w.mmap mid).ww - 2 * (w.cmap i).bw)
    (h1h : 1 ≤ (w.mmap mid).wh - 2 * (w.cmap i).bw)
    (hbhw : env.bh ≤ (w.mmap mid).ww - 2 * (w.cmap i).bw)
    (hbhh : env.bh ≤ (w.mmap mid).wh - 2 * (w.cmap i).bw)
    (hch : ¬ ((w.cmap i).x = (w.mmap mid).wx ∧ (w.cmap i).y = (w.mmap mid).wy ∧
      (w.cmap i).w = (w.mmap mid).ww - 2 * (w.cmap i).bw ∧
      (w.cmap i).h = (w.mmap mid).wh - 2 * (w.cmap i).bw)) :
    applysizehints env w i (w.mmap mid).wx (w.mmap mid).wy
        ((w.mmap mid).ww - 2 * (w.cmap i).bw) ((w.mmap mid).wh - 2 * (w.cmap i).bw) false
      = (true, (w.mmap mid).wx, (w.mmap mid).wy,
          (w.mmap mid).ww - 2 * (w.cmap i).bw, (w.mmap mid).wh - 2 * (w.cmap i).bw) := by
  unfold applysizehints
  dsimp only
  rw [hmon]
  rw [max_eq_right h1w, max_eq_right h1h]
  rw [clampPos_id env _ _ _ _ _ _ (by omega) (by omega) (by omega) (by omega)]
  dsimp only
  rw [if_neg (by omega : ¬ ((w.mmap mid).wh - 2 * (w.cmap i).bw < env.bh))]
  rw [if_neg (by omega : ¬ ((w.mmap mid).ww - 2 * (w.cmap i).bw < env.bh))]
  rw [if_neg (by simp [resizehints, hnf, hlt, Layout.hasArrange])]
  dsimp only
  have hdec : ((w.mmap mid).wx ≠ (w.cmap i).x ∨ (w.mmap mid).wy ≠ (w.cmap i).y ∨
      (w.mmap mid).ww - 2 * (w.cmap i).bw ≠ (w.cmap i).w ∨
      (w.mmap mid).wh - 2 * (w.cmap i).bw ≠ (w.cmap i).h) := by
    by_contra hno
    push_neg at hno
    exact hch ⟨hno.1.symm, hno.2.1.symm, hno.2.2.1.symm, hno.2.2.2.symm⟩
  rw [decide_eq_true hdec]


theorem resizeclient_cmap_ne (w : World) (j : Nat) (x y a b : Int) (i : Nat)
    (h : i ≠ j) : (resizeclient w j x y a b).cmap i = w.cmap i := by
  unfold resizeclient
  dsimp only
  split
  · simp [World.updc, h]
  · split <;> simp [World.updc, h]

theorem resize_cmap_ne (env : Env) (w : World) (j : Nat) (x y a b : Int) (ia : Bool)
    (i : Nat) (h : i ≠ j) : (resize env w j x y a b ia).cmap i = w.cmap i := by
  unfold resize
  dsimp only
  split
  · exact resizeclient_cmap_ne w j _ _ _ _ i h
  · rfl

theorem monocleResize_cmap_notmem (env : Env) (mid : Nat) (l : List Nat) :
    ∀ (w : World) (i : Nat), i ∉ l → (monocleResize env mid w l).cmap i = w.cmap i := by
  induction l with
  | nil => intro w i _; rfl
  | cons j rest ih =>
    intro w i hi
    have hij : i ≠ j := fun h => hi (h ▸ List.mem_cons_self ..)
    have hirest : i ∉ rest := fun h => hi (List.mem_cons_of_mem _ h)
    unfold monocleResize
    dsimp only
    split
    · exact ih w i hirest
    · rw [ih _ i hirest, resize_cmap_ne _ _ _ _ _ _ _ _ _ hij]

theorem monocleResize_conf_mono (env : Env) (mid : Nat) (l : List Nat) :
    ∀ (w : World) (e : Conf), e ∈ w.conf → e ∈ (monocleResize env mid w l).conf := by
  induction l with
  | nil => intro w e he; exact he
  | cons j rest ih =>
    intro w e he
    unfold monocleResize
    dsimp only
    split
    · exact ih w e he
    · exact ih _ e (resize_conf_mono _ _ _ _ _ _ _ _ _ he)

theorem resize_monocle_step (env : Env) (w : World) (i : Nat) (mid : Nat)
    (hmon : (w.cmap i).mon = mid)
    (hlt : (w.mmap mid).curlt = Layout.monocle)
    (hnf : (w.cmap i).isfloating = false)
    (hfs : (w.cmap i).isfullscreen = false)
    (hbm : (w.cmap i).beingmoved = false)
    (hww : 0 < (w.mmap mid).ww) (hwh : 0 < (w.mmap mid).wh)
    (h1w : 1 ≤ (w.mmap mid).ww - 2 * (w.cmap i).bw)
    (h1h : 1 ≤ (w.mmap mid).wh - 2 * (w.cmap i).bw)
    (hbhw : env.bh ≤ (w.mmap mid).ww - 2 * (w.cmap i).bw)
    (hbhh : env.bh ≤ (w.mmap mid).wh - 2 * (w.cmap i).bw)
    (hch : ¬ ((w.cmap i).x = (w.mmap mid).wx ∧ (w.cmap i).y = (w.mmap mid).wy ∧
      (w.cmap i).w = (w.mmap mid).ww - 2 * (w.cmap i).bw ∧
      (w.cmap i).h = (w.mmap mid).wh - 2 * (w.cmap i).bw)) :
    ((resize env w i (w.mmap mid).wx (w.mmap mid).wy ((w.mmap mid).ww - 2 * (w.cmap i).bw)
        ((w.mmap mid).wh - 2 * (w.cmap i).bw) false).cmap i).x = (w.mmap mid).wx ∧
    ((resize env w i (w.mmap mid).wx (w.mmap mid).wy ((w.mmap mid).ww - 2 * (w.cmap i).bw)
        ((w.mmap mid).wh - 2 * (w.cmap i).bw) false).cmap i).y = (w.mmap mid).wy ∧
    ((resize env w i (w.mmap mid).wx (w.mmap mid).wy ((w.mmap mid).ww - 2 * (w.cmap i).bw)
        ((w.mmap mid).wh - 2 * (w.cmap i).bw) false).cmap i).w = (w.mmap mid).ww ∧
    ((resize env w i (w.mmap mid).wx (w.mmap mid).wy ((w.mmap mid).ww - 2 * (w.cmap i).bw)
        ((w.mmap mid).wh - 2 * (w.cmap i).bw) false).cmap i).h = (w.mmap mid).wh ∧
    (⟨(w.cmap i).win, (w.mmap mid).wx, (w.mmap mid).wy, (w.mmap mid).ww, (w.mmap mid).wh, 0⟩ : Conf)
      ∈ (resize env w i (w.mmap mid).wx (w.mmap mid).wy ((w.mmap mid).ww - 2 * (w.cmap i).bw)
          ((w.mmap mid).wh - 2 * (w.cmap i).bw) false).conf := by
  unfold resize
  rw [applysizehints_monocle env w i mid hmon hlt hnf hww hwh h1w h1h hbhw hbhh hch]
  dsimp only
  rw [if_pos rfl]
  unfold resizeclient
  dsimp only
  rw [if_neg (show ¬ _ = true by simp [World.updc, hbm])]
  rw [if_pos ?hc]
  case hc =>
    refine ⟨Or.inr ?_, ?_, ?_, ?_⟩
    · simp [World.updc, hmon, hlt]
    · simp [World.updc, hfs]
    · simp [World.updc, hnf]
    · simp [World.updc, hmon, hlt, Layout.hasArrange]
  refine ⟨?_, ?_, ?_, ?_, ?_⟩
  · simp [World.updc]
  · simp [World.updc]
  · simp [World.updc]
    omega
  · simp [World.updc]
    omega
  · refine List.mem_cons.mpr (Or.inl ?_)
    simp [World.updc, Conf.mk.injEq]
    try omega


theorem monocleResize_spec (env : Env) (mid : Nat) :
    ∀ (l : List Nat) (w : World) (i : Nat), i ∈ l → l.Nodup →
    (w.cmap i).mon = mid →
    (w.mmap mid).curlt = Layout.monocle →
    (w.cmap i).tags &&& (w.mmap mid).curtags ≠ 0 →
    (w.cmap i).isfloating = false →
    (w.cmap i).isfullscreen = false →
    (w.cmap i).beingmoved = false →
    0 < (w.mmap mid).ww → 0 < (w.mmap mid).wh →
    1 ≤ (w.mmap mid).ww - 2 * (w.cmap i).bw →
    1 ≤ (w.mmap mid).wh - 2 * (w.cmap i).bw →
    env.bh ≤ (w.mmap mid).ww - 2 * (w.cmap i).bw →
    env.bh ≤ (w.mmap mid).wh - 2 * (w.cmap i).bw →
    ¬ ((w.cmap i).x = (w.mmap mid).wx ∧ (w.cmap i).y = (w.mmap mid).wy ∧
      (w.cmap i).w = (w.mmap mid).ww - 2 * (w.cmap i).bw ∧
      (w.cmap i).h = (w.mmap mid).wh - 2 * (w.cmap i).bw) →
    ((monocleResize env mid w l).cmap i).x = (w.mmap mid).wx ∧
    ((monocleResize env mid w l).cmap i).y = (w.mmap mid).wy ∧
    ((monocleResize env mid w l).cmap i).w = (w.mmap mid).ww ∧
    ((monocleResize env mid w l).cmap i).h = (w.mmap mid).wh ∧
    (⟨(w.cmap i).win, (w.mmap mid).wx, (w.mmap mid).wy,
        (w.mmap mid).ww, (w.mmap mid).wh, 0⟩ : Conf) ∈ (monocleResize env mid w l).conf := by
  intro l
  induction l with
  | nil => intro w i hmem; exact absurd hmem (List.not_mem_nil i)
  | cons j rest ih =>
    intro w i hmem hnd hmon hlt hvis hnf hfs hbm hww hwh h1w h1h hbhw hbhh hch
    have hndr := (List.nodup_cons.mp hnd).2
    have hjmem := (List.nodup_cons.mp hnd).1
    rcases List.mem_cons.mp hmem with hj | hj
    · subst hj
      unfold monocleResize
      dsimp only
      rw [if_neg (show ¬ ((w.cmap i).isfloating = true ∨ ¬ ISVISIBLE (w.cmap i) (w.mmap mid))
        from fun hc => hc.elim (by simp [hnf]) (fun hv => hv hvis))]
      have hstep := resize_monocle_step env w i mid hmon hlt hnf hfs hbm hww hwh h1w h1h hbhw hbhh hch
      rw [monocleResize_cmap_notmem env mid rest _ i hjmem]
      refine ⟨hstep.1, hstep.2.1, hstep.2.2.1, hstep.2.2.2.1, ?_⟩
      exact monocleResize_conf_mono env mid rest _ _ hstep.2.2.2.2
    · have hij : i ≠ j := fun h => hjmem (h ▸ hj)
      unfold monocleResize
      dsimp only
      split
      · exact ih w i hj hndr hmon hlt hvis hnf hfs hbm hww hwh h1w h1h hbhw hbhh hch
      · have hcm : (resize env w j (w.mmap mid).wx (w.mmap mid).wy
            ((w.mmap mid).ww - 2 * (w.cmap j).bw) ((w.mmap mid).wh - 2 * (w.cmap j).bw)
            false).cmap i = w.cmap i :=
          resize_cmap_ne _ _ _ _ _ _ _ _ _ hij
        have hmm := resize_mmap env w j (w.mmap mid).wx (w.mmap mid).wy
            ((w.mmap mid).ww - 2 * (w.cmap j).bw) ((w.mmap mid).wh - 2 * (w.cmap j).bw) false
        have := ih (resize env w j (w.mmap mid).wx (w.mmap mid).wy
            ((w.mmap mid).ww - 2 * (w.cmap j).bw) ((w.mmap mid).wh - 2 * (w.cmap j).bw) false)
          i hj hndr (by rw [hcm]; exact hmon) (by rw [hmm]; exact hlt)
          (by rw [hcm, hmm]; exact hvis) (by rw [hcm]; exact hnf) (by rw [hcm]; exact hfs)
          (by rw [hcm]; exact hbm) (by rw [hmm]; exact hww) (by rw [hmm]; exact hwh)
          (by rw [hcm, hmm]; exact h1w) (by rw [hcm, hmm]; exact h1h)
          (by rw [hcm, hmm]; exact hbhw) (by rw [hcm, hmm]; exact hbhh)
          (by rw [hcm, hmm]; exact hch)
        rw [hcm, hmm] at this
        exact this

/-- C4 (amended): in the monocle layout the gaps are NOT applied: every
visible tiled client is resized to the full work area shrunk by twice its
own border width, and the border-elision branch of `resizeclient` then
stores the full work-area rectangle and configures the window with border
width 0; the layout symbol becomes "[n]" for the n ≥ 1 visible clients. -/
theorem C4_monocle_fills_workarea (env : Env) (w : World) (mid : Nat) (i : Nat)
    (hmem : i ∈ w.clients) (hnd : w.clients.Nodup)
    (hmon : (w.cmap i).mon = mid)
    (hlt : (w.mmap mid).curlt = Layout.monocle)
    (hvis : (w.cmap i).tags &&& (w.mmap mid).curtags ≠ 0)
    (hnf : (w.cmap i).isfloating = false)
    (hfs : (w.cmap i).isfullscreen = false)
    (hbm : (w.cmap i).beingmoved = false)
    (hww : 0 < (w.mmap mid).ww) (hwh : 0 < (w.mmap mid).wh)
    (h1w : 1 ≤ (w.mmap mid).ww - 2 * (w.cmap i).bw)
    (h1h : 1 ≤ (w.mmap mid).wh - 2 * (w.cmap i).bw)
    (hbhw : env.bh ≤ (w.mmap mid).ww - 2 * (w.cmap i).bw)
    (hbhh : env.bh ≤ (w.mmap mid).wh - 2 * (w.cmap i).bw)
    (hch : ¬ ((w.cmap i).x = (w.mmap mid).wx ∧ (w.cmap i).y = (w.mmap mid).wy ∧
      (w.cmap i).w = (w.mmap mid).ww - 2 * (w.cmap i).bw ∧
      (w.cmap i).h = (w.mmap mid).wh - 2 * (w.cmap i).bw)) :
    ((monocle env w mid).cmap i).x = (w.mmap mid).wx ∧
    ((monocle env w mid).cmap i).y = (w.mmap mid).wy ∧
    ((monocle env w mid).cmap i).w = (w.mmap mid).ww ∧
    ((monocle env w mid).cmap i).h = (w.mmap mid).wh ∧
    (⟨(w.cmap i).win, (w.mmap mid).wx, (w.mmap mid).wy,
        (w.mmap mid).ww, (w.mmap mid).wh, 0⟩ : Conf) ∈ (monocle env w mid).conf ∧
    ((monocle env w mid).mmap mid).ltsymbol
      = "[" ++ toString (monocleCount w (w.mmap mid)) ++ "]" := by
  have hn : 0 < monocleCount w (w.mmap mid) := by
    unfold monocleCount
    refine List.length_pos.mpr (List.ne_nil_of_mem (List.mem_filter.mpr ⟨hmem, ?_⟩))
    simp [ISVISIBLE, hvis]
  unfold monocle
  dsimp only
  rw [if_pos hn]
  have hspec := monocleResize_spec env mid
    ((w.updm mid (fun m =>
      { m with ltsymbol := "[" ++ toString (monocleCount w (w.mmap mid)) ++ "]" })).clients)
    (w.updm mid (fun m =>
      { m with ltsymbol := "[" ++ toString (monocleCount w (w.mmap mid)) ++ "]" }))
    i hmem hnd hmon
    (by rw [updm_mmap, if_pos rfl]; exact hlt)
    (by rw [updm_mmap, if_pos rfl]; exact hvis)
    hnf hfs hbm
    (by rw [updm_mmap, if_pos rfl]; exact hww)
    (by rw [updm_mmap, if_pos rfl]; exact hwh)
    (by rw [updm_mmap, if_pos rfl]; exact h1w)
    (by rw [updm_mmap, if_pos rfl]; exact h1h)
    (by rw [updm_mmap, if_pos rfl]; exact hbhw)
    (by rw [updm_mmap, if_pos rfl]; exact hbhh)
    (by rw [updm_mmap, if_pos rfl]; exact hch)
  rw [updm_mmap, if_pos rfl] at hspec
  refine ⟨hspec.1, hspec.2.1, hspec.2.2.1, hspec.2.2.2.1, hspec.2.2.2.2, ?_⟩
  rw [monocleResize_mmap, updm_mmap, if_pos rfl]


theorem C4_witness :
    ((monocle sampleEnv worldOneTiled 0).cmap 1).x = (worldOneTiled.mmap 0).wx ∧
    ((monocle sampleEnv worldOneTiled 0).cmap 1).y = (worldOneTiled.mmap 0).wy ∧
    ((monocle sampleEnv worldOneTiled 0).cmap 1).w = (worldOneTiled.mmap 0).ww ∧
    ((monocle sampleEnv worldOneTiled 0).cmap 1).h = (worldOneTiled.mmap 0).wh ∧
    (⟨(worldOneTiled.cmap 1).win, (worldOneTiled.mmap 0).wx, (worldOneTiled.mmap 0).wy,
        (worldOneTiled.mmap 0).ww, (worldOneTiled.mmap 0).wh, 0⟩ : Conf)
      ∈ (monocle sampleEnv worldOneTiled 0).conf ∧
    ((monocle sampleEnv worldOneTiled 0).mmap 0).ltsymbol
      = "[" ++ toString (monocleCount worldOneTiled (worldOneTiled.mmap 0)) ++ "]" :=
  C4_monocle_fills_workarea sampleEnv worldOneTiled 0 1 (by decide) (by decide) (by decide)
    (by decide) (by decide) (by decide) (by decide) (by decide) (by decide) (by decide)
    (by decide) (by decide) (by decide) (by decide) (by decide)

/-- C4 counterexample: the configured outer gaps are 10 and 30, yet after
`monocle` the client's stored rectangle equals the full work area — it is
not shrunk by the gaps on any edge. -/
theorem C4_counterexample :
    (worldOneTiled.mmap 0).gappoh = 10 ∧ (worldOneTiled.mmap 0).gappov = 30 ∧
    ((monocle sampleEnv worldOneTiled 0).cmap 1).x = (worldOneTiled.mmap 0).wx ∧
    ((monocle sampleEnv worldOneTiled 0).cmap 1).y = (worldOneTiled.mmap 0).wy ∧
    ((monocle sampleEnv worldOneTiled 0).cmap 1).w = (worldOneTiled.mmap 0).ww ∧
    ((monocle sampleEnv worldOneTiled 0).cmap 1).h = (worldOneTiled.mmap 0).wh := by
  decide


/-! ### Inert floating clients: in-place resize is a no-op -/

theorem inert_congr (env : Env) (w w' : World) (i : Nat)
    (hc : w'.cmap i = w.cmap i) (hm : w'.mmap = w.mmap)
    (h : inert env w i) : inert env w' i := by
  unfold inert at *
  rw [hc, hm]
  exact h

theorem hintAdjust_trivial (c : Client) (wd ht : Int)
    (hb : c.basew = 0) (hbh : c.baseh = 0) (hminw : c.minw = 0) (hminh : c.minh = 0)
    (hincw : c.incw = 0) (hinch : c.inch = 0) (hmaxw : c.maxw = 0) (hmaxh : c.maxh = 0)
    (hmina : c.mina = 0) (hwd : 0 ≤ wd) (hht : 0 ≤ ht) :
    hintAdjust c wd ht = (wd, ht) := by
  unfold hintAdjust
  dsimp only
  rw [hb, hbh, hminw, hminh, hincw, hinch, hmaxw, hmaxh, hmina]
  simp [max_eq_left hwd, max_eq_left hht]

theorem applysizehints_inert (env : Env) (w : World) (i : Nat)
    (h : inert env w i) :
    applysizehints env w i (w.cmap i).x (w.cmap i).y (w.cmap i).w (w.cmap i).h false
      = (false, (w.cmap i).x, (w.cmap i).y, (w.cmap i).w, (w.cmap i).h) := by
  obtain ⟨hfl, hfs, hsp, hb, hbh', hminw, hminh, hincw, hinch, hmaxw, hmaxh, hmina,
    hw1, hh1, hbw, hbh2, hxlt, hylt, hxgt, hygt⟩ := h
  unfold applysizehints
  dsimp only
  rw [max_eq_right hw1, max_eq_right hh1]
  rw [clampPos_id env _ _ _ _ _ _ (by omega) (by omega) (by omega) (by omega)]
  dsimp only
  rw [if_neg (by omega : ¬ ((w.cmap i).h < env.bh))]
  rw [if_neg (by omega : ¬ ((w.cmap i).w < env.bh))]
  have hha : hintAdjust (w.cmap i) (w.cmap i).w (w.cmap i).h
      = ((w.cmap i).w, (w.cmap i).h) :=
    hintAdjust_trivial _ _ _ hb hbh' hminw hminh hincw hinch hmaxw hmaxh hmina
      (by omega) (by omega)
  split
  · rw [hha]
    simp
  · simp

theorem resize_inert_noop (env : Env) (w : World) (i : Nat) (h : inert env w i) :
    resize env w i (w.cmap i).x (w.cmap i).y (w.cmap i).w (w.cmap i).h false = w := by
  unfold resize
  dsimp only
  rw [applysizehints_inert env w i h]
  simp

theorem showhide_inert (env : Env) (l : List Nat) :
    ∀ (w : World) (i : Nat), inert env w i →
      (showhide env w l).cmap i = w.cmap i := by
  induction l with
  | nil => intro w i _; rfl
  | cons j rest ih =>
    intro w i hin
    unfold showhide
    dsimp only
    by_cases hji : j = i
    · subst hji
      split
      · rw [if_neg (show ¬ ((w.cmap j).tags &&& SPTAGMASK ≠ 0 ∧
            (w.cmap j).isfloating = true) from by simp [hin.2.2.1])]
        rw [if_pos (show (¬ (w.mmap (w.cmap j).mon).curlt.hasArrange = true ∨
              (w.cmap j).isfloating = true) ∧
              ¬ (w.cmap j).isfullscreen = true from
            ⟨Or.inr hin.1, by simp [hin.2.1]⟩)]
        rw [resize_inert_noop env w j hin]
        exact ih w j hin
      · exact ih w j hin
    · have hij : i ≠ j := fun h => hji h.symm
      split
      · split
        · split
          · rw [ih _ i ?_, resize_cmap_ne _ _ _ _ _ _ _ _ _ hij, updc_cmap,
                if_neg hij]
            exact inert_congr env w _ i
              (by rw [resize_cmap_ne _ _ _ _ _ _ _ _ _ hij, updc_cmap, if_neg hij])
              (by rw [resize_mmap, updc_mmap]) hin
          · rw [ih _ i ?_, updc_cmap, if_neg hij]
            exact inert_congr env w _ i
              (by rw [updc_cmap, if_neg hij]) (by rw [updc_mmap]) hin
        · split
          · rw [ih _ i ?_, resize_cmap_ne _ _ _ _ _ _ _ _ _ hij]
            exact inert_congr env w _ i
              (by rw [resize_cmap_ne _ _ _ _ _ _ _ _ _ hij]) (by rw [resize_mmap]) hin
          · exact ih w i hin
      · exact ih w i hin

theorem monocleResize_float_skip (env : Env) (mid : Nat) (l : List Nat) :
    ∀ (w : World) (i : Nat), (w.cmap i).isfloating = true →
      (monocleResize env mid w l).cmap i = w.cmap i := by
  induction l with
  | nil => intro w i _; rfl
  | cons j rest ih =>
    intro w i hfl
    unfold monocleResize
    dsimp only
    by_cases hji : j = i
    · subst hji
      rw [if_pos (Or.inl hfl)]
      exact ih w j hfl
    · have hij : i ≠ j := fun h => hji h.symm
      split
      · exact ih w i hfl
      · rw [ih _ i (by rw [resize_cmap_ne _ _ _ _ _ _ _ _ _ hij]; exact hfl),
            resize_cmap_ne _ _ _ _ _ _ _ _ _ hij]

theorem tileResize_cmap_notmem (env : Env) (mid : Nat) (x0 colw iv : Int)
    (l : List Nat) :
    ∀ (y0 totalh : Int) (cnt : Nat) (w : World) (i : Nat), i ∉ l →
      (tileResize env mid x0 y0 colw totalh iv cnt w l).cmap i = w.cmap i := by
  induction l with
  | nil => intro y0 th cnt w i _; rfl
  | cons j rest ih =>
    intro y0 th cnt w i hi
    have hij : i ≠ j := fun h => hi (h ▸ List.mem_cons_self ..)
    have hir : i ∉ rest := fun h => hi (List.mem_cons_of_mem _ h)
    unfold tileResize
    dsimp only
    split
    · rfl
    · rw [ih _ _ _ _ i hir, resize_cmap_ne _ _ _ _ _ _ _ _ _ hij]

theorem tile_cmap_float (env : Env) (w : World) (mid : Nat) (i : Nat)
    (hfl : (w.cmap i).isfloating = true) :
    (tile env w mid).cmap i = w.cmap i := by
  unfold tile
  dsimp only
  have hnot : i ∉ w.clients.filter
      (fun j => decide (¬ (w.cmap j).isfloating ∧
        ISVISIBLE (w.cmap j) (w.mmap mid))) := by
    intro hmem
    have h2 := (List.mem_filter.mp hmem).2
    simp [hfl] at h2
  split
  · rfl
  · split
    · exact tileResize_cmap_notmem _ _ _ _ _ _ _ _ _ _ i hnot
    · rw [tileResize_cmap_notmem _ _ _ _ _ _ _ _ _ _ i
          (fun h => hnot (List.drop_subset _ _ h)),
        tileResize_cmap_notmem _ _ _ _ _ _ _ _ _ _ i
          (fun h => hnot (List.take_subset _ _ h))]

theorem arrangemon_cmap_float (env : Env) (w : World) (mid : Nat) (i : Nat)
    (hfl : (w.cmap i).isfloating = true) :
    (arrangemon env w mid).cmap i = w.cmap i := by
  unfold arrangemon
  dsimp only
  split
  · rfl
  · unfold monocle
    dsimp only
    split
    · exact monocleResize_float_skip env mid _ _ i hfl
    · exact monocleResize_float_skip env mid _ _ i hfl
  · exact tile_cmap_float env _ mid i hfl

theorem arrange_cmap_inert (env : Env) (w : World) (mid : Nat) (i : Nat)
    (hin : inert env w i) :
    (arrange env w mid).cmap i = w.cmap i := by
  unfold arrange restack
  dsimp only
  rw [arrangemon_cmap_float env _ mid i
      (by rw [showhide_inert env w.stack w i hin]; exact hin.1),
    showhide_inert env w.stack w i hin]


theorem resizeclient_plain (w : World) (i : Nat) (x y wd ht : Int)
    (hbm : (w.cmap i).beingmoved = false)
    (hfl : (w.cmap i).isfloating = true) :
    resizeclient w i x y wd ht =
      { w.updc i (fun c =>
          { c with oldx := c.x, x := x, oldy := c.y, y := y,
                   oldw := c.w, w := wd, oldh := c.h, h := ht }) with
        conf := ⟨(w.cmap i).win, x, y, wd, ht, (w.cmap i).bw⟩ :: w.conf } := by
  unfold resizeclient
  dsimp only
  rw [if_neg (show ¬ (((w.updc i (fun c =>
      { c with oldx := c.x, x := x, oldy := c.y, y := y,
               oldw := c.w, w := wd, oldh := c.h, h := ht })).cmap i).beingmoved = true)
    from by rw [updc_cmap, if_pos rfl]; simp [hbm])]
  rw [if_neg ?hcond]
  case hcond =>
    intro hcond
    have hflu : (((w.updc i (fun c =>
        { c with oldx := c.x, x := x, oldy := c.y, y := y,
                 oldw := c.w, w := wd, oldh := c.h, h := ht })).cmap i).isfloating = true) := by
      rw [updc_cmap, if_pos rfl]; exact hfl
    exact hcond.2.2.1 hflu
  rw [updc_cmap, if_pos rfl]
  rfl

theorem setfullscreen_set_cmap (env : Env) (w : World) (i : Nat)
    (hfs : (w.cmap i).isfullscreen = false) (hbm : (w.cmap i).beingmoved = false) :
    (setfullscreen env w i true).cmap i = { w.cmap i with
      isfullscreen := true, oldstate := (w.cmap i).isfloating,
      oldbw := (w.cmap i).bw, bw := 0, isfloating := true,
      oldx := (w.cmap i).x, x := (w.mmap (w.cmap i).mon).mx,
      oldy := (w.cmap i).y, y := (w.mmap (w.cmap i).mon).my,
      oldw := (w.cmap i).w, w := (w.mmap (w.cmap i).mon).mw,
      oldh := (w.cmap i).h, h := (w.mmap (w.cmap i).mon).mh } := by
  unfold setfullscreen resizeclient
  simp [World.updc, hfs, hbm]

theorem setfullscreen_set_mmap (env : Env) (w : World) (i : Nat)
    (hfs : (w.cmap i).isfullscreen = false) :
    (setfullscreen env w i true).mmap = w.mmap := by
  unfold setfullscreen
  dsimp only
  rw [if_pos (show true = true ∧ ¬ ((w.cmap i).isfullscreen = true) from
    ⟨rfl, by simp [hfs]⟩)]
  exact resizeclient_mmap ..

theorem setfullscreen_clear (env : Env) (w : World) (i : Nat)
    (hfs : (w.cmap i).isfullscreen = true)
    (hbm : (w.cmap i).beingmoved = false)
    (hos : (w.cmap i).oldstate = true)
    (hsp : (w.cmap i).tags &&& SPTAGMASK = 0)
    (hb : (w.cmap i).basew = 0) (hbh' : (w.cmap i).baseh = 0)
    (hminw : (w.cmap i).minw = 0) (hminh : (w.cmap i).minh = 0)
    (hincw : (w.cmap i).incw = 0) (hinch : (w.cmap i).inch = 0)
    (hmaxw : (w.cmap i).maxw = 0) (hmaxh : (w.cmap i).maxh = 0)
    (hmina : (w.cmap i).mina = 0)
    (hw1 : 1 ≤ (w.cmap i).oldw) (hh1 : 1 ≤ (w.cmap i).oldh)
    (hbw : env.bh ≤ (w.cmap i).oldw) (hbh2 : env.bh ≤ (w.cmap i).oldh)
    (hxlt : (w.cmap i).oldx < (w.mmap (w.cmap i).mon).wx + (w.mmap (w.cmap i).mon).ww)
    (hylt : (w.cmap i).oldy < (w.mmap (w.cmap i).mon).wy + (w.mmap (w.cmap i).mon).wh)
    (hxgt : (w.mmap (w.cmap i).mon).wx
      < (w.cmap i).oldx + (w.cmap i).oldw + 2 * (w.cmap i).oldbw)
    (hygt : (w.mmap (w.cmap i).mon).wy
      < (w.cmap i).oldy + (w.cmap i).oldh + 2 * (w.cmap i).oldbw) :
    ((setfullscreen env w i false).cmap i).x = (w.cmap i).oldx ∧
    ((setfullscreen env w i false).cmap i).y = (w.cmap i).oldy ∧
    ((setfullscreen env w i false).cmap i).w = (w.cmap i).oldw ∧
    ((setfullscreen env w i false).cmap i).h = (w.cmap i).oldh ∧
    ((setfullscreen env w i false).cmap i).bw = (w.cmap i).oldbw ∧
    ((setfullscreen env w i false).cmap i).isfloating = true ∧
    ((setfullscreen env w i false).cmap i).isfullscreen = false := by
  unfold setfullscreen
  dsimp only
  rw [if_neg (show ¬ (false = true ∧ ¬ ((w.cmap i).isfullscreen = true)) from
    by simp)]
  rw [if_pos (show ¬ (false = true) ∧ (w.cmap i).isfullscreen = true from
    ⟨by simp, hfs⟩)]
  have hbm1 : (((w.updc i (fun c =>
      { c with isfullscreen := false, isfloating := c.oldstate, bw := c.oldbw,
               x := c.oldx, y := c.oldy, w := c.oldw, h := c.oldh })).cmap i).beingmoved
      = false) := by
    rw [updc_cmap, if_pos rfl]; exact hbm
  have hfl1 : (((w.updc i (fun c =>
      { c with isfullscreen := false, isfloating := c.oldstate, bw := c.oldbw,
               x := c.oldx, y := c.oldy, w := c.oldw, h := c.oldh })).cmap i).isfloating
      = true) := by
    rw [updc_cmap, if_pos rfl]; exact hos
  rw [updc_cmap, if_pos rfl]
  rw [resizeclient_plain _ i _ _ _ _ hbm1 hfl1]
  rw [arrange_cmap_inert env _ _ i ?hin]
  case hin =>
    refine ⟨?_, ?_, ?_, ?_, ?_, ?_, ?_, ?_, ?_, ?_, ?_, ?_, ?_, ?_, ?_, ?_, ?_, ?_,
      ?_, ?_⟩ <;>
      simp [World.updc, hos, hsp, hb, hbh', hminw, hminh, hincw, hinch, hmaxw,
        hmaxh, hmina, hw1, hh1, hbw, hbh2] <;>
      omega
  refine ⟨?_, ?_, ?_, ?_, ?_, ?_, ?_⟩ <;> simp [World.updc, hos]


/-- C5 (amended): the fullscreen round trip `setfullscreen(c, true);
setfullscreen(c, false)` restores x, y, w, h, bw and isfloating only for a
FLOATING client (with trivial size hints, off the scratchpad, not being
mouse-dragged, with a geometry of at least bar height overlapping its
monitor's window area).  For a tiled client under an active layout the
`arrange` issued when clearing fullscreen immediately re-tiles it, so the
pre-fullscreen geometry is NOT restored (see the counterexample). -/
theorem C5_fullscreen_roundtrip (env : Env) (w : World) (i : Nat)
    (hin : inert env w i) (hbm : (w.cmap i).beingmoved = false) :
    ((setfullscreen env (setfullscreen env w i true) i false).cmap i).x
      = (w.cmap i).x ∧
    ((setfullscreen env (setfullscreen env w i true) i false).cmap i).y
      = (w.cmap i).y ∧
    ((setfullscreen env (setfullscreen env w i true) i false).cmap i).w
      = (w.cmap i).w ∧
    ((setfullscreen env (setfullscreen env w i true) i false).cmap i).h
      = (w.cmap i).h ∧
    ((setfullscreen env (setfullscreen env w i true) i false).cmap i).bw
      = (w.cmap i).bw ∧
    ((setfullscreen env (setfullscreen env w i true) i false).cmap i).isfloating
      = true ∧
    ((setfullscreen env (setfullscreen env w i true) i false).cmap i).isfullscreen
      = false := by
  obtain ⟨hfl, hfs, hsp, hb, hbh', hminw, hminh, hincw, hinch, hmaxw, hmaxh, hmina,
    hw1, hh1, hbw, hbh2, hxlt, hylt, hxgt, hygt⟩ := hin
  have hAc := setfullscreen_set_cmap env w i hfs hbm
  have hAm := setfullscreen_set_mmap env w i hfs
  have h := setfullscreen_clear env (setfullscreen env w i true) i
    (by rw [hAc])
    (by rw [hAc]; exact hbm)
    (by rw [hAc]; exact hfl)
    (by rw [hAc]; exact hsp)
    (by rw [hAc]; exact hb) (by rw [hAc]; exact hbh')
    (by rw [hAc]; exact hminw) (by rw [hAc]; exact hminh)
    (by rw [hAc]; exact hincw) (by rw [hAc]; exact hinch)
    (by rw [hAc]; exact hmaxw) (by rw [hAc]; exact hmaxh)
    (by rw [hAc]; exact hmina)
    (by rw [hAc]; exact hw1) (by rw [hAc]; exact hh1)
    (by rw [hAc]; exact hbw) (by rw [hAc]; exact hbh2)
    (by rw [hAc, hAm]; exact hxlt) (by rw [hAc, hAm]; exact hylt)
    (by rw [hAc, hAm]; exact hxgt) (by rw [hAc, hAm]; exact hygt)
  rw [hAc] at h
  exact h

theorem C5_witness :
    ((setfullscreen sampleEnv (setfullscreen sampleEnv worldOneFloat 1 true) 1
        false).cmap 1).x = (worldOneFloat.cmap 1).x ∧
    ((setfullscreen sampleEnv (setfullscreen sampleEnv worldOneFloat 1 true) 1
        false).cmap 1).y = (worldOneFloat.cmap 1).y ∧
    ((setfullscreen sampleEnv (setfullscreen sampleEnv worldOneFloat 1 true) 1
        false).cmap 1).w = (worldOneFloat.cmap 1).w ∧
    ((setfullscreen sampleEnv (setfullscreen sampleEnv worldOneFloat 1 true) 1
        false).cmap 1).h = (worldOneFloat.cmap 1).h ∧
    ((setfullscreen sampleEnv (setfullscreen sampleEnv worldOneFloat 1 true) 1
        false).cmap 1).bw = (worldOneFloat.cmap 1).bw ∧
    ((setfullscreen sampleEnv (setfullscreen sampleEnv worldOneFloat 1 true) 1
        false).cmap 1).isfloating = true ∧
    ((setfullscreen sampleEnv (setfullscreen sampleEnv worldOneFloat 1 true) 1
        false).cmap 1).isfullscreen = false :=
  C5_fullscreen_roundtrip sampleEnv worldOneFloat 1 (by unfold inert; decide) (by decide)

/-- C5 counterexample: a tiled (non-floating) client of width 100 under the
monocle layout; after the fullscreen round trip its width is 1920 — the
re-arrange issued by `setfullscreen(c, 0)` re-tiles it instead of keeping
the restored pre-fullscreen geometry. -/
theorem C5_counterexample :
    (worldOneTiled.cmap 1).isfullscreen = false ∧
    (worldOneTiled.cmap 1).isfloating = false ∧
    (worldOneTiled.cmap 1).w = 100 ∧
    ((setfullscreen sampleEnv (setfullscreen sampleEnv worldOneTiled 1 true) 1
        false).cmap 1).w = 1920 := by
  decide


/-! ### View idempotence -/

theorem updm_selmon (w : World) (i : Nat) (f : Monitor → Monitor) :
    (w.updm i f).selmon = w.selmon := rfl

theorem updc_selmon (w : World) (i : Nat) (f : Client → Client) :
    (w.updc i f).selmon = w.selmon := rfl

theorem attachstack_selmon (w : World) (i : Nat) :
    (attachstack w i).selmon = w.selmon := rfl

theorem ucd_mmap (w : World) : (updatecurrentdesktop w).mmap = w.mmap := rfl

theorem ucd_selmon (w : World) : (updatecurrentdesktop w).selmon = w.selmon := rfl

theorem resizeclient_selmon (w : World) (i : Nat) (x y a b : Int) :
    (resizeclient w i x y a b).selmon = w.selmon :=
  skel_selmon (resizeclient_skel ..)

theorem arrange_selmon (env : Env) (w : World) (mid : Nat) :
    (arrange env w mid).selmon = w.selmon :=
  skel_selmon (arrange_skel ..)

theorem attachclients_selmon (env : Env) (w : World) (mid : Nat) :
    (attachclients env w mid).selmon = w.selmon :=
  skel_selmon (attachclients_skel ..)

theorem viewFsLoop_selmon (ts : Nat) (l : List Nat) (w : World) (fs : Option Nat) :
    (viewFsLoop ts w l fs).1.selmon = w.selmon :=
  skel_selmon (viewFsLoop_skel ts l w fs)

theorem arrange_curtags (env : Env) (w : World) (mid m : Nat) :
    ((arrange env w mid).mmap m).curtags = (w.mmap m).curtags :=
  mview_curtags (arrange_mview ..)

theorem attachclients_curtags (env : Env) (w : World) (mid m : Nat) :
    ((attachclients env w mid).mmap m).curtags = (w.mmap m).curtags :=
  mview_curtags (attachclients_mview ..)

theorem setcurtags_curtags (m : Monitor) (t : Nat) :
    (m.setcurtags t).curtags = t := by
  unfold Monitor.setcurtags Monitor.curtags
  split <;> rename_i h <;> simp [h]

theorem firstVisible_visible (w : World) (m : Monitor) (l : List Nat) (i : Nat) :
    firstVisible w m l = some i → ISVISIBLE (w.cmap i) m := by
  induction l with
  | nil => intro h; cases h
  | cons a rest ih =>
    intro h
    unfold firstVisible at h
    by_cases hv : ISVISIBLE (w.cmap a) m
    · rw [if_pos hv] at h; cases h; exact hv
    · rw [if_neg hv] at h; exact ih h

/-- focus(NULL) does not move the selected monitor when every stack client
visible there already belongs to it. -/
theorem focus_none_selmon (w : World)
    (howned : ∀ i, i ∈ w.stack → ISVISIBLE (w.cmap i) (w.mmap w.selmon) →
      (w.cmap i).mon = w.selmon) :
    (focus w none).selmon = w.selmon := by
  unfold focus
  dsimp only
  cases hfv : firstVisible w (w.mmap w.selmon) w.stack with
  | none => rfl
  | some i =>
    have hmon := howned i (firstVisible_mem _ _ _ _ hfv) (firstVisible_visible _ _ _ _ hfv)
    dsimp only
    rw [if_neg (not_not_intro hmon)]
    split <;> simp [updm_selmon, attachstack_selmon, detachstack_selmon,
      seturgent, updc_selmon]

/-- The owned-clients fact transports along operations that keep the
skeleton, each client's tags and monitor, and the displayed tagset. -/
theorem owned_transport (A W4 : World) (mid mcur : Nat)
    (hskel : skel W4 = skel A)
    (htags : ∀ j, (W4.cmap j).tags = (A.cmap j).tags)
    (hmonp : ∀ j, (W4.cmap j).mon = (A.cmap j).mon)
    (hct : (W4.mmap W4.selmon).curtags = mcur)
    (howned : ∀ j, j ∈ A.clients → ownedBy A mid mcur j)
    (hsubA : ∀ i, i ∈ A.stack → i ∈ A.clients)
    (hsel : A.selmon = mid) :
    ∀ i, i ∈ W4.stack → ISVISIBLE (W4.cmap i) (W4.mmap W4.selmon) →
      (W4.cmap i).mon = W4.selmon := by
  intro i hmem hvis
  unfold ISVISIBLE at hvis
  rw [htags i, hct] at hvis
  have hmemA : i ∈ A.clients := hsubA i (by rw [skel_stack hskel] at hmem; exact hmem)
  have hmon : (A.cmap i).mon = mid := howned i hmemA hvis
  rw [hmonp i, hmon, ← hsel, skel_selmon hskel]

theorem tailFocus_curtags (W4 : World)
    (howned : ∀ i, i ∈ W4.stack → ISVISIBLE (W4.cmap i) (W4.mmap W4.selmon) →
      (W4.cmap i).mon = W4.selmon) :
    ((updatecurrentdesktop (focus W4 none)).mmap
        (updatecurrentdesktop (focus W4 none)).selmon).curtags
      = (W4.mmap W4.selmon).curtags := by
  rw [ucd_mmap, ucd_selmon, focus_none_selmon W4 howned,
      mview_curtags (focus_mview W4 none W4.selmon)]

theorem viewTail_owned_none (env : Env) (B : World)
    (hsub : ∀ i, i ∈ B.stack → i ∈ B.clients) :
    ∀ i, i ∈ (arrange env (attachclients env B B.selmon) B.selmon).stack →
      ISVISIBLE ((arrange env (attachclients env B B.selmon) B.selmon).cmap i)
        ((arrange env (attachclients env B B.selmon) B.selmon).mmap
          (arrange env (attachclients env B B.selmon) B.selmon).selmon) →
      ((arrange env (attachclients env B B.selmon) B.selmon).cmap i).mon
        = (arrange env (attachclients env B B.selmon) B.selmon).selmon := by
  apply owned_transport (attachclients env B B.selmon) _ B.selmon
    ((B.mmap B.selmon).curtags)
  · exact arrange_skel ..
  · intro j; exact cviewA_tags (arrange_cviewA ..)
  · intro j; exact cviewA_mon (arrange_cviewA ..)
  · rw [arrange_selmon, attachclients_selmon, arrange_curtags, attachclients_curtags]
  · intro j hj
    rw [skel_clients (attachclients_skel env B B.selmon)] at hj
    exact attachclients_owned env B B.selmon j hj
  · intro i hi
    rw [skel_stack (attachclients_skel env B B.selmon)] at hi
    rw [skel_clients (attachclients_skel env B B.selmon)]
    exact hsub i hi
  · exact attachclients_selmon ..

theorem viewTail_owned_some (env : Env) (B : World) (k : Nat) (x y wd ht : Int)
    (hsub : ∀ i, i ∈ B.stack → i ∈ B.clients) :
    ∀ i, i ∈ (resizeclient ((arrange env (attachclients env B B.selmon)
        B.selmon).updc k (fun c => { c with isfullscreen := true })) k x y wd ht).stack →
      ISVISIBLE ((resizeclient ((arrange env (attachclients env B B.selmon)
          B.selmon).updc k (fun c => { c with isfullscreen := true })) k x y wd ht).cmap i)
        ((resizeclient ((arrange env (attachclients env B B.selmon)
            B.selmon).updc k (fun c => { c with isfullscreen := true })) k x y wd ht).mmap
          (resizeclient ((arrange env (attachclients env B B.selmon)
            B.selmon).updc k (fun c => { c with isfullscreen := true })) k x y wd ht).selmon) →
      ((resizeclient ((arrange env (attachclients env B B.selmon)
          B.selmon).updc k (fun c => { c with isfullscreen := true })) k x y wd ht).cmap i).mon
        = (resizeclient ((arrange env (attachclients env B B.selmon)
            B.selmon).updc k (fun c => { c with isfullscreen := true })) k x y wd ht).selmon := by
  apply owned_transport (attachclients env B B.selmon) _ B.selmon
    ((B.mmap B.selmon).curtags)
  · exact Eq.trans (resizeclient_skel ..) (Eq.trans (updc_skel ..) (arrange_skel ..))
  · intro j
    rw [cviewA_tags (resizeclient_cviewA ..), updc_cmap]
    split
    · show ((arrange env (attachclients env B B.selmon) B.selmon).cmap j).tags
        = ((attachclients env B B.selmon).cmap j).tags
      exact cviewA_tags (arrange_cviewA ..)
    · exact cviewA_tags (arrange_cviewA ..)
  · intro j
    rw [cviewA_mon (resizeclient_cviewA ..), updc_cmap]
    split
    · show ((arrange env (attachclients env B B.selmon) B.selmon).cmap j).mon
        = ((attachclients env B B.selmon).cmap j).mon
      exact cviewA_mon (arrange_cviewA ..)
    · exact cviewA_mon (arrange_cviewA ..)
  · rw [resizeclient_mmap, resizeclient_selmon, updc_mmap, updc_selmon,
        arrange_selmon, attachclients_selmon, arrange_curtags, attachclients_curtags]
  · intro j hj
    rw [skel_clients (attachclients_skel env B B.selmon)] at hj
    exact attachclients_owned env B B.selmon j hj
  · intro i hi
    rw [skel_stack (attachclients_skel env B B.selmon)] at hi
    rw [skel_clients (attachclients_skel env B B.selmon)]
    exact hsub i hi
  · exact attachclients_selmon ..

/-- After the tail of `view` the selected monitor displays exactly the
masked argument. -/
theorem viewRest_post (env : Env) (w : World) (ui : Nat)
    (hmask : ui &&& TAGMASK ≠ 0)
    (hsub : ∀ i, i ∈ w.stack → i ∈ w.clients) :
    ((viewRest env w ui (ui &&& TAGMASK)).mmap
        (viewRest env w ui (ui &&& TAGMASK)).selmon).curtags = ui &&& TAGMASK := by
  unfold viewRest
  dsimp only
  rw [if_pos hmask]
  split
  · -- a single fullscreen client survives and is re-fullscreened
    rw [tailFocus_curtags _ ?how1]
    case how1 =>
      refine viewTail_owned_some env _ _ _ _ _ _ ?_
      intro i hi
      rw [skel_stack (viewFsLoop_skel _ _ _ _)] at hi
      rw [skel_clients (viewFsLoop_skel _ _ _ _)]
      exact hsub i hi
    rw [resizeclient_mmap, resizeclient_selmon, updc_mmap, updc_selmon,
        arrange_selmon, attachclients_selmon, arrange_curtags, attachclients_curtags,
        viewFsLoop_selmon, viewFsLoop_mmap]
    simp only [updm_selmon]
    rw [updm_mmap, if_pos rfl]
    rw [setcurtags_curtags]
  · -- no fullscreen client to restore
    rw [tailFocus_curtags _ ?how2]
    case how2 =>
      refine viewTail_owned_none env _ ?_
      intro i hi
      rw [skel_stack (viewFsLoop_skel _ _ _ _)] at hi
      rw [skel_clients (viewFsLoop_skel _ _ _ _)]
      exact hsub i hi
    rw [arrange_selmon, attachclients_selmon, arrange_curtags, attachclients_curtags,
        viewFsLoop_selmon, viewFsLoop_mmap]
    simp only [updm_selmon]
    rw [updm_mmap, if_pos rfl]
    rw [setcurtags_curtags]

/-- view(arg) returns immediately when the masked argument equals the
selected monitor's displayed tagset. -/
theorem view_noop (env : Env) (w : World) (ui : Nat)
    (hne : ui ≠ 0) (heq : ui &&& TAGMASK = (w.mmap w.selmon).curtags) :
    view env w ui = w := by
  unfold view
  dsimp only
  rw [if_pos ⟨hne, heq⟩]


/-- C10: a `view` whose nonzero masked argument equals the selected
monitor's displayed tagset returns immediately with the world unchanged,
and `view` with a fixed mask whose TAGMASK part is nonzero is idempotent
(for worlds whose focus stack only holds managed clients). -/
theorem C10_view_idempotent (env : Env) (w : World) (ui : Nat)
    (hne : ui ≠ 0) (hmask : ui &&& TAGMASK ≠ 0)
    (hsub : ∀ i, i ∈ w.stack → i ∈ w.clients) :
    (ui &&& TAGMASK = (w.mmap w.selmon).curtags → view env w ui = w) ∧
    view env (view env w ui) ui = view env w ui := by
  refine ⟨fun h => view_noop env w ui hne h, ?_⟩
  by_cases h1 : ui &&& TAGMASK = (w.mmap w.selmon).curtags
  · rw [view_noop env w ui hne h1]
    exact view_noop env w ui hne h1
  · have hpost : ((view env w ui).mmap (view env w ui).selmon).curtags
        = ui &&& TAGMASK ∨ view env w ui = w := by
      unfold view
      dsimp only
      rw [if_neg (fun hc => h1 hc.2), if_pos hmask]
      split
      · split
        · right; rfl
        · left
          refine viewRest_post env _ ui hmask ?_
          intro i hi
          rw [skel_stack (arrange_skel _ _ _), skel_stack (attachclients_skel _ _ _)] at hi
          rw [skel_clients (arrange_skel _ _ _), skel_clients (attachclients_skel _ _ _)]
          exact hsub i hi
      · left
        exact viewRest_post env w ui hmask hsub
    rcases hpost with hc | he
    · exact view_noop env (view env w ui) ui hne hc.symm
    · rw [he]
      exact he

theorem C10_witness :
    ((2 &&& TAGMASK = (worldOneTiled.mmap worldOneTiled.selmon).curtags →
        view sampleEnv worldOneTiled 2 = worldOneTiled) ∧
      view sampleEnv (view sampleEnv worldOneTiled 2) 2
        = view sampleEnv worldOneTiled 2) :=
  C10_view_idempotent sampleEnv worldOneTiled 2 (by decide) (by decide)
    (fun _ hi => hi)


/-! ### The fullscreen policy of view -/

theorem ucd_cmap (w : World) : (updatecurrentdesktop w).cmap = w.cmap := rfl

/-- After the tail of `view` switches to tagset `ts`, a fullscreen
candidate of the new view stays fullscreen exactly when the candidates are
odd in number and it is the last of them. -/
theorem viewRest_fullscreen (env : Env) (w : World) (ui ts : Nat)
    (hmask2 : ui &&& TAGMASK ≠ 0)
    (hnd : w.clients.Nodup) :
    ∀ j ∈ fsCandidates w ts,
      (((viewRest env w ui ts).cmap j).isfullscreen = true ↔
        ((fsCandidates w ts).length % 2 = 1 ∧
          (fsCandidates w ts).getLast? = some j)) := by
  intro j hj
  have hjc := List.mem_filter.mp hj
  have hjmem : j ∈ w.clients := hjc.1
  have hjp := hjc.2
  rw [decide_eq_true_eq] at hjp
  unfold viewRest
  dsimp only
  rw [if_pos hmask2]
  rw [ucd_cmap, cviewA_isfullscreen (focus_cviewA _ none j)]
  split
  · rename_i k heq
    rw [viewFsLoop_fs ts _ _ none ?nd1] at heq
    case nd1 => exact hnd
    have htf : toggleFold none (fsCandidates w ts) = some k := heq
    rw [cviewA_isfullscreen (resizeclient_cviewA ..), updc_cmap]
    by_cases hjk : j = k
    · subst hjk
      rw [if_pos rfl]
      have hrhs := (toggleFold_none_eq_some (fsCandidates w ts) j).mp htf
      exact iff_of_true rfl hrhs
    · rw [if_neg hjk]
      rw [cviewA_isfullscreen (arrange_cviewA ..),
          cviewB_isfullscreen (attachclients_cviewB ..)]
      rw [viewFsLoop_cmap ts _ _ none ?nd2 j]
      case nd2 => exact hnd
      rw [if_pos ⟨hjmem, hjp.1, hjp.2⟩]
      refine iff_of_false (by simp) ?_
      intro hr
      exact hjk (Option.some.inj
        (htf.symm.trans ((toggleFold_none_eq_some (fsCandidates w ts) j).mpr hr))).symm
  · rename_i heq
    rw [viewFsLoop_fs ts _ _ none ?nd3] at heq
    case nd3 => exact hnd
    have htf : toggleFold none (fsCandidates w ts) = none := heq
    rw [cviewA_isfullscreen (arrange_cviewA ..),
        cviewB_isfullscreen (attachclients_cviewB ..)]
    rw [viewFsLoop_cmap ts _ _ none ?nd4 j]
    case nd4 => exact hnd
    rw [if_pos ⟨hjmem, hjp.1, hjp.2⟩]
    refine iff_of_false (by simp) ?_
    intro hr
    have h2 := (toggleFold_none_eq_some (fsCandidates w ts) j).mpr hr
    rw [htf] at h2
    cases h2


/-- C2 (amended): switching `view` to a new tagset clears `isfullscreen` on
every fullscreen client of the new view EXCEPT that, when their number is
ODD, the last such client in the client list keeps (is re-granted)
fullscreen.  With exactly one candidate it stays fullscreen and with an
even number all are cleared, as claimed — but with three, five, ... the
last one remains fullscreen (see the counterexample), because the code
toggles `fs = fs ? NULL : c` per candidate instead of counting them. -/
theorem C2_view_fullscreen_policy (env : Env) (w : World) (ui : Nat)
    (hne : ui ≠ 0) (hmask : ui &&& TAGMASK = ui)
    (hneq : ui ≠ (w.mmap w.selmon).curtags)
    (hnoswap : ∀ mid ∈ w.mons, mid ≠ w.selmon → ui &&& (w.mmap mid).curtags = 0)
    (hnd : w.clients.Nodup) :
    ∀ j ∈ fsCandidates w ui,
      (((view env w ui).cmap j).isfullscreen = true ↔
        ((fsCandidates w ui).length % 2 = 1 ∧
          (fsCandidates w ui).getLast? = some j)) := by
  intro j hj
  have hfsm : findSwapMon w ui = none := by
    unfold findSwapMon
    rw [List.find?_eq_none]
    intro mid hm
    simp only [decide_eq_true_eq, not_and, ne_eq, not_not]
    intro hmne
    exact hnoswap mid hm hmne
  unfold view
  dsimp only
  rw [if_neg (fun hc => hneq (hmask.symm.trans hc.2))]
  rw [if_pos (show ui &&& TAGMASK ≠ 0 from by rw [hmask]; exact hne)]
  rw [hmask, hfsm]
  exact viewRest_fullscreen env w ui ui (by rw [hmask]; exact hne) hnd j hj

theorem C2_witness :
    ((view sampleEnv worldThreeFs 2).cmap 3).isfullscreen = true ↔
      ((fsCandidates worldThreeFs 2).length % 2 = 1 ∧
        (fsCandidates worldThreeFs 2).getLast? = some 3) :=
  C2_view_fullscreen_policy sampleEnv worldThreeFs 2 (by decide) (by decide)
    (by decide) (by decide) (by decide) 3 (by decide)

/-- C2 counterexample: three fullscreen clients become visible; the claim
predicts all of them lose `isfullscreen`, but the last one (id 3) is
fullscreen again after the switch. -/
theorem C2_counterexample :
    2 ≤ (fsCandidates worldThreeFs 2).length ∧
    ((view sampleEnv worldThreeFs 2).cmap 3).isfullscreen = true := by
  decide


/-! ### toggleview: tag transfer between monitors -/

theorem ffutLoop_spec (occ : Nat) : ∀ (fuel t : Nat),
    (∀ s, s < t → 2 ^ s &&& occ ≠ 0) →
    (ffutLoop occ (2 ^ t) fuel = 0 ∨
      (ffutLoop occ (2 ^ t) fuel &&& occ = 0 ∧ ffutLoop occ (2 ^ t) fuel < occ ∧
        ∃ u, ffutLoop occ (2 ^ t) fuel = 2 ^ u ∧
          ∀ s, s < u → 2 ^ s &&& occ ≠ 0)) := by
  intro fuel
  induction fuel with
  | zero => intro t _; left; rfl
  | succ n ih =>
    intro t hbelow
    unfold ffutLoop
    by_cases h1 : 2 ^ t < occ
    · rw [if_pos h1]
      by_cases h2 : 2 ^ t &&& occ = 0
      · rw [if_pos h2]
        exact Or.inr ⟨h2, h1, t, rfl, hbelow⟩
      · rw [if_neg h2]
        have hsh : (2 ^ t) <<< 1 = 2 ^ (t + 1) := by
          rw [Nat.shiftLeft_eq, pow_one, ← pow_succ]
        rw [hsh]
        refine ih (t + 1) ?_
        intro s hs
        rcases Nat.lt_succ_iff_lt_or_eq.mp hs with h | h
        · exact hbelow s h
        · rw [h]; exact h2
    · rw [if_neg h1]
      left
      rfl

/-- findfirstunusedtag() returns 0 or the lowest power of two missing from
the union of displayed tagsets (and lying below it). -/
theorem ffut_spec (v : World) :
    findfirstunusedtag v = 0 ∨
    (findfirstunusedtag v &&& occupiedAll v = 0 ∧
      findfirstunusedtag v < occupiedAll v ∧
      ∃ u, findfirstunusedtag v = 2 ^ u ∧
        ∀ s, s < u → 2 ^ s &&& occupiedAll v ≠ 0) := by
  have h := ffutLoop_spec (occupiedAll v) 64 0 (by intro s hs; cases hs)
  rw [pow_zero] at h
  exact h

theorem tvStep_selmon (env : Env) (masked : Nat) (w : World) (mid : Nat) :
    (tvStep env masked w mid).selmon = w.selmon := by
  unfold tvStep
  dsimp only
  rw [arrange_selmon, attachclients_selmon, updm_selmon]
  split <;> rfl

theorem tvStep_curtags_ne (env : Env) (masked : Nat) (w : World) (om j : Nat)
    (hj : j ≠ om) :
    ((tvStep env masked w om).mmap j).curtags = (w.mmap j).curtags := by
  unfold tvStep
  dsimp only
  rw [arrange_curtags, attachclients_curtags, updm_mmap, if_neg hj]
  split
  · rw [updm_mmap, if_neg hj, updm_mmap, if_neg hj]
  · rw [updm_mmap, if_neg hj]

theorem curtags_sel (m : Monitor) (s : Option Nat) :
    ({ m with sel := s }).curtags = m.curtags := rfl

theorem tvStep_curtags_om (env : Env) (masked : Nat) (w : World) (om : Nat) :
    ((tvStep env masked w om).mmap om).curtags =
      (if (w.mmap om).curtags ^^^ masked ≠ 0 then (w.mmap om).curtags ^^^ masked
       else findfirstunusedtag
         (w.updm om (fun m => m.setcurtags (m.curtags ^^^ masked)))) := by
  have hw1 : (((w.updm om (fun m => m.setcurtags (m.curtags ^^^ masked))).mmap
      om).curtags) = (w.mmap om).curtags ^^^ masked := by
    rw [updm_mmap, if_pos rfl, setcurtags_curtags]
  unfold tvStep
  dsimp only
  rw [arrange_curtags, attachclients_curtags, updm_mmap, if_pos rfl, curtags_sel]
  split
  · rename_i h0
    rw [updm_mmap, if_pos rfl, setcurtags_curtags, h0, Nat.zero_or,
        if_neg (not_not_intro (hw1.symm.trans h0))]
  · rename_i h0
    rw [hw1, if_pos (fun hc => h0 (hw1.trans hc))]

theorem toggleviewLoop_skip (env : Env) (selmonId nts masked : Nat)
    (l : List Nat) :
    ∀ (w : World), (∀ mid ∈ l, mid = selmonId ∨ nts &&& (w.mmap mid).curtags = 0) →
      toggleviewLoop env selmonId nts masked w l = w := by
  induction l with
  | nil => intro w _; rfl
  | cons a rest ih =>
    intro w h
    unfold toggleviewLoop
    dsimp only
    have hna : ¬ (a ≠ selmonId ∧ nts &&& (w.mmap a).curtags ≠ 0) := by
      rcases h a (List.mem_cons_self ..) with h1 | h1
      · exact fun hc => hc.1 h1
      · exact fun hc => hc.2 h1
    rw [if_neg hna]
    exact ih w (fun mid hm => h mid (List.mem_cons_of_mem _ hm))

theorem toggleviewLoop_single (env : Env) (selmonId nts masked om : Nat)
    (l : List Nat) :
    ∀ (w : World), l.Nodup → om ∈ l → om ≠ selmonId →
      nts &&& (w.mmap om).curtags ≠ 0 →
      (∀ mid ∈ l, mid ≠ selmonId → mid ≠ om → nts &&& (w.mmap mid).curtags = 0) →
      toggleviewLoop env selmonId nts masked w l = tvStep env masked w om := by
  induction l with
  | nil => intro w _ hm; cases hm
  | cons a rest ih =>
    intro w hnd hm homne hhit hoth
    unfold toggleviewLoop
    dsimp only
    rcases List.mem_cons.mp hm with ha | ha
    · subst ha
      rw [if_pos ⟨homne, hhit⟩]
      show toggleviewLoop env selmonId nts masked (tvStep env masked w om) rest
        = tvStep env masked w om
      refine toggleviewLoop_skip env selmonId nts masked rest _ ?_
      intro mid hmid
      by_cases hms : mid = selmonId
      · exact Or.inl hms
      · refine Or.inr ?_
        have hmo : mid ≠ om := fun h => (List.nodup_cons.mp hnd).1 (h ▸ hmid)
        rw [tvStep_curtags_ne env masked w om mid hmo]
        exact hoth mid (List.mem_cons_of_mem _ hmid) hms hmo
    · have hao : a ≠ om := fun heq => (List.nodup_cons.mp hnd).1 (heq ▸ ha)
      have hna : ¬ (a ≠ selmonId ∧ nts &&& (w.mmap a).curtags ≠ 0) := by
        by_cases has : a = selmonId
        · exact fun hc => hc.1 has
        · exact fun hc => hc.2 (hoth a (List.mem_cons_self ..) has hao)
      rw [if_neg hna]
      exact ih w (List.nodup_cons.mp hnd).2 ha homne hhit
        (fun mid hmid => hoth mid (List.mem_cons_of_mem _ hmid))


/-- C3 (amended): when `toggleview(ui)` hits exactly one other monitor
(the new tagset meets its displayed tagset and no third monitor's), that
monitor's displayed tagset becomes its old tagset XOR the masked argument;
if that is zero it instead becomes `findfirstunusedtag()` evaluated on the
world with the XOR applied — which is either 0 (the monitor is left
displaying the EMPTY tagset, contradicting the claim's guarantee — see the
counterexample) or the lowest tag bit not displayed on any monitor. -/
theorem C3_toggleview_transfer (env : Env) (w : World) (ui om : Nat)
    (hmem : om ∈ w.mons) (hnd : w.mons.Nodup) (hom : om ≠ w.selmon)
    (hhit : ((w.mmap w.selmon).curtags ^^^ (ui &&& TAGMASK)) &&&
      (w.mmap om).curtags ≠ 0)
    (hoth : ∀ mid ∈ w.mons, mid ≠ w.selmon → mid ≠ om →
      ((w.mmap w.selmon).curtags ^^^ (ui &&& TAGMASK)) &&&
        (w.mmap mid).curtags = 0) :
    ((toggleview env w ui).mmap om).curtags =
      (if (w.mmap om).curtags ^^^ (ui &&& TAGMASK) ≠ 0 then
        (w.mmap om).curtags ^^^ (ui &&& TAGMASK)
      else
        findfirstunusedtag
          (w.updm om (fun m => m.setcurtags (m.curtags ^^^ (ui &&& TAGMASK))))) ∧
    (findfirstunusedtag
        (w.updm om (fun m => m.setcurtags (m.curtags ^^^ (ui &&& TAGMASK)))) = 0 ∨
      (findfirstunusedtag
          (w.updm om (fun m => m.setcurtags (m.curtags ^^^ (ui &&& TAGMASK)))) &&&
          occupiedAll
            (w.updm om (fun m => m.setcurtags (m.curtags ^^^ (ui &&& TAGMASK)))) = 0 ∧
        findfirstunusedtag
            (w.updm om (fun m => m.setcurtags (m.curtags ^^^ (ui &&& TAGMASK)))) <
          occupiedAll
            (w.updm om (fun m => m.setcurtags (m.curtags ^^^ (ui &&& TAGMASK)))) ∧
        ∃ u, findfirstunusedtag
            (w.updm om (fun m => m.setcurtags (m.curtags ^^^ (ui &&& TAGMASK))))
            = 2 ^ u ∧
          ∀ s, s < u → 2 ^ s &&&
            occupiedAll
              (w.updm om (fun m => m.setcurtags (m.curtags ^^^ (ui &&& TAGMASK))))
            ≠ 0)) := by
  refine ⟨?_, ffut_spec _⟩
  unfold toggleview
  dsimp only
  rw [toggleviewLoop_single env w.selmon
      ((w.mmap w.selmon).curtags ^^^ (ui &&& TAGMASK)) (ui &&& TAGMASK) om w.mons
      w hnd hmem hom hhit hoth]
  rw [ucd_mmap, mview_curtags (focus_mview _ none om), arrange_curtags,
      attachclients_curtags, updm_mmap,
      if_neg (show ¬ (om = (tvStep env (ui &&& TAGMASK) w om).selmon) from by
        rw [tvStep_selmon]; exact hom)]
  exact tvStep_curtags_om env (ui &&& TAGMASK) w om

theorem C3_witness :
    ((toggleview sampleEnv worldTwoMons 2).mmap 1).curtags =
      (if (worldTwoMons.mmap 1).curtags ^^^ (2 &&& TAGMASK) ≠ 0 then
        (worldTwoMons.mmap 1).curtags ^^^ (2 &&& TAGMASK)
      else
        findfirstunusedtag
          (worldTwoMons.updm 1
            (fun m => m.setcurtags (m.curtags ^^^ (2 &&& TAGMASK))))) ∧
    (findfirstunusedtag
        (worldTwoMons.updm 1
          (fun m => m.setcurtags (m.curtags ^^^ (2 &&& TAGMASK)))) = 0 ∨
      (findfirstunusedtag
          (worldTwoMons.updm 1
            (fun m => m.setcurtags (m.curtags ^^^ (2 &&& TAGMASK)))) &&&
          occupiedAll
            (worldTwoMons.updm 1
              (fun m => m.setcurtags (m.curtags ^^^ (2 &&& TAGMASK)))) = 0 ∧
        findfirstunusedtag
            (worldTwoMons.updm 1
              (fun m => m.setcurtags (m.curtags ^^^ (2 &&& TAGMASK)))) <
          occupiedAll
            (worldTwoMons.updm 1
              (fun m => m.setcurtags (m.curtags ^^^ (2 &&& TAGMASK)))) ∧
        ∃ u, findfirstunusedtag
            (worldTwoMons.updm 1
              (fun m => m.setcurtags (m.curtags ^^^ (2 &&& TAGMASK)))) = 2 ^ u ∧
          ∀ s, s < u → 2 ^ s &&&
            occupiedAll
              (worldTwoMons.updm 1
                (fun m => m.setcurtags (m.curtags ^^^ (2 &&& TAGMASK)))) ≠ 0)) :=
  C3_toggleview_transfer sampleEnv worldTwoMons 2 1 (by decide) (by decide)
    (by decide) (by decide) (by decide)

/-- C3 counterexample: monitor 1 displays exactly tag 2; `toggleview(2)` on
monitor 0 transfers the bit and empties monitor 1, and because the only
other displayed tag is the lowest one, `findfirstunusedtag` returns 0:
monitor 1 is left displaying the empty tagset, which the claim rules out. -/
theorem C3_counterexample :
    2 &&& (worldTwoMons.mmap 1).curtags ≠ 0 ∧
    (1 : Nat) ≠ worldTwoMons.selmon ∧
    ((toggleview sampleEnv worldTwoMons 2).mmap 1).curtags = 0 := by
  decide

end Dwm
